import Mathlib

set_option maxRecDepth 4000

/-!
Shallow embedding of the cleaning and feature-derivation stages of the
California-Housing batch pipeline (`scripts/02_limpiar_datos.py` and
`03_crear_features.py`).

A tabular cell is modelled by `Val`: missing data (pandas `NaN`), the two
infinities produced by float division, a finite numeric value (modelled
exactly as a rational), or a categorical label.  A `Dataset` is an ordered
column schema together with an ordered list of rows; a row is a total
function from column names to cells, so that a dataset only "has" the
columns listed in its schema.  Arithmetic, comparisons, quantiles, mean,
variance and median follow the numpy/pandas float semantics: `NaN`
propagates through arithmetic, every comparison involving `NaN` is false,
and the statistics skip missing entries.
-/

namespace Pipeline

/-- A cell of a tabular dataset: missing (`NaN`), positive infinity,
negative infinity, a finite numeric value, or a categorical label. -/
inductive Val where
  | na : Val
  | pinf : Val
  | ninf : Val
  | fin : ℚ → Val
  | str : String → Val
deriving DecidableEq

/-- Is the cell a numeric (non-missing, non-categorical) value?  The
infinities count as numeric, as in numpy. -/
def isNum : Val → Bool
  | .fin _ => true
  | .pinf => true
  | .ninf => true
  | _ => false

/-- Is the cell a finite numeric value? -/
def isFin : Val → Bool
  | .fin _ => true
  | _ => false

/-- Negation with float semantics. -/
def valNeg : Val → Val
  | .fin q => .fin (-q)
  | .pinf => .ninf
  | .ninf => .pinf
  | _ => .na

/-- Addition with float semantics: `NaN` propagates, `∞ + (-∞)` is `NaN`. -/
def valAdd : Val → Val → Val
  | .fin a, .fin b => .fin (a + b)
  | .fin _, .pinf => .pinf
  | .fin _, .ninf => .ninf
  | .pinf, .fin _ => .pinf
  | .ninf, .fin _ => .ninf
  | .pinf, .pinf => .pinf
  | .ninf, .ninf => .ninf
  | _, _ => .na

/-- Subtraction, derived from addition and negation as in IEEE floats. -/
def valSub (a b : Val) : Val := valAdd a (valNeg b)

/-- Multiplication with float semantics: `0 · ∞` is `NaN`. -/
def valMul : Val → Val → Val
  | .fin a, .fin b => .fin (a * b)
  | .fin a, .pinf => if 0 < a then .pinf else if a < 0 then .ninf else .na
  | .fin a, .ninf => if 0 < a then .ninf else if a < 0 then .pinf else .na
  | .pinf, .fin b => if 0 < b then .pinf else if b < 0 then .ninf else .na
  | .ninf, .fin b => if 0 < b then .ninf else if b < 0 then .pinf else .na
  | .pinf, .pinf => .pinf
  | .pinf, .ninf => .ninf
  | .ninf, .pinf => .ninf
  | .ninf, .ninf => .pinf
  | _, _ => .na

/-- Division with numpy float-array semantics: a nonzero value divided by
zero gives a signed infinity, `0 / 0` gives `NaN`, a finite value divided
by an infinity gives `0`, `∞ / ∞` gives `NaN`. -/
def valDiv : Val → Val → Val
  | .fin a, .fin b =>
      if b = 0 then (if a = 0 then .na else if 0 < a then .pinf else .ninf)
      else .fin (a / b)
  | .fin _, .pinf => .fin 0
  | .fin _, .ninf => .fin 0
  | .pinf, .fin b => if b < 0 then .ninf else .pinf
  | .ninf, .fin b => if b < 0 then .pinf else .ninf
  | _, _ => .na

/-- Strict comparison with float semantics: any comparison involving `NaN`
(or a categorical label) is false. -/
def valLt : Val → Val → Bool
  | .fin a, .fin b => decide (a < b)
  | .fin _, .pinf => true
  | .ninf, .fin _ => true
  | .ninf, .pinf => true
  | _, _ => false

/-- Non-strict comparison with float semantics: any comparison involving
`NaN` (or a categorical label) is false, while `∞ ≤ ∞` holds. -/
def valLe : Val → Val → Bool
  | .fin a, .fin b => decide (a ≤ b)
  | .fin _, .pinf => true
  | .ninf, .fin _ => true
  | .ninf, .pinf => true
  | .pinf, .pinf => true
  | .ninf, .ninf => true
  | _, _ => false

/-- Map both infinities to `NaN`, leaving every other cell unchanged
(`Series.replace([np.inf, -np.inf], np.nan)`). -/
def infToNa : Val → Val
  | .pinf => .na
  | .ninf => .na
  | v => v

/-- Replace a missing cell by a fill value (`Series.fillna`). -/
def fillna (fill v : Val) : Val := if v = .na then fill else v

/-- Insert a value into a list sorted by `valLe` (stable insertion). -/
def insertVal (v : Val) : List Val → List Val
  | [] => [v]
  | w :: ws => if valLe v w then v :: w :: ws else w :: insertVal v ws

/-- Sort a list of cells by `valLe` (insertion sort); used on lists that
contain no `NaN`, where `valLe` is a total order. -/
def sortVals (xs : List Val) : List Val := xs.foldr insertVal []

/-- Empirical quantile with pandas semantics (`Series.quantile`): missing
entries are skipped, the remaining values are sorted, and the quantile is
read off by linear interpolation at position `(n − 1) · q`.  Returns `NaN`
when no numeric entry remains. -/
def quantileVal (xs : List Val) (q : ℚ) : Val :=
  let ys := sortVals (xs.filter isNum)
  if ys.isEmpty then .na
  else
    let n := ys.length
    let h : ℚ := ((n : ℚ) - 1) * q
    let i : ℕ := (⌊h⌋).toNat
    let lo := ys.getD i .na
    let hi := ys.getD (i + 1) lo
    if h = (i : ℚ) then lo else valAdd lo (valMul (.fin (h - (i : ℚ))) (valSub hi lo))

/-- Median with pandas semantics (`Series.median`): the `1/2` quantile,
skipping missing entries. -/
def medianVal (xs : List Val) : Val := quantileVal xs (1/2)

/-- Mean with pandas semantics (`Series.mean`): missing entries are
skipped; `NaN` when no numeric entry remains. -/
def meanVal (xs : List Val) : Val :=
  let ys := xs.filter isNum
  if ys.isEmpty then .na
  else valDiv (ys.foldl valAdd (.fin 0)) (.fin (ys.length : ℚ))

/-- Sample variance with pandas semantics (`Series.var`, `ddof = 1`):
missing entries are skipped; `NaN` when fewer than two numeric entries
remain. -/
def varVal (xs : List Val) : Val :=
  let ys := xs.filter isNum
  if ys.length ≤ 1 then .na
  else
    let m := meanVal xs
    valDiv (ys.foldl (fun acc v => valAdd acc (valMul (valSub v m) (valSub v m))) (.fin 0))
      (.fin ((ys.length - 1 : ℕ) : ℚ))

/-- Standard deviation (`Series.std`, `ddof = 1`).  The square root of the
sample variance is irrational in general, so this embedding abstracts it by
the variance itself: the abstraction is exact on the observations the
verified claims make, namely the classification of the result as missing
(fewer than two samples), zero (a constant column) or a finite positive
value, since `sqrt` preserves each of these classes. -/
def stdVal (xs : List Val) : Val := varVal xs

/-- A row of a tabular dataset, as a total valuation of column names; a
dataset only "has" the columns listed in its schema. -/
abbrev Row := String → Val

/-- An ordered column schema together with an ordered list of rows
(a pandas `DataFrame`). -/
structure Dataset where
  cols : List String
  rows : List Row

/-- The values of one column, in row order (`df[c]`). -/
def colVals (d : Dataset) (c : String) : List Val := d.rows.map (fun r => r c)

/-- The tuple of a row's values over a given schema; two rows are
duplicates when their keys agree (pandas `duplicated` also treats two
`NaN` entries as equal). -/
def rowKey (cols : List String) (r : Row) : List Val := cols.map r

/-- Drop the columns whose entries are all missing
(`df.drop(columns=df.columns[df.isnull().all()])`); over zero rows every
column is vacuously all-missing and is dropped. -/
def dropNullCols (d : Dataset) : Dataset :=
  { cols := d.cols.filter (fun c => !(d.rows.all (fun r => decide (r c = .na)))),
    rows := d.rows }

/-- Keep the first occurrence of each distinct row key, dropping later
duplicates (`df.drop_duplicates()`); `seen` accumulates the keys of the
rows already kept. -/
def dropDupRowsAux (cols : List String) (seen : List (List Val)) : List Row → List Row
  | [] => []
  | r :: rs =>
      if rowKey cols r ∈ seen then dropDupRowsAux cols seen rs
      else r :: dropDupRowsAux cols (rowKey cols r :: seen) rs

/-- Remove exactly duplicated rows, keeping the first occurrence. -/
def drop_duplicates (d : Dataset) : Dataset :=
  { cols := d.cols, rows := dropDupRowsAux d.cols [] d.rows }

/-- Per-row IQR outlier test of `detectar_outliers_iqr`: `Q1` and `Q3` are
the `0.25` and `0.75` quantiles of the column over the whole dataset `d`,
`IQR = Q3 − Q1`, and a row is flagged when its value is strictly below
`Q1 − factor·IQR` or strictly above `Q3 + factor·IQR`. -/
def detectar_outliers_iqr (d : Dataset) (columna : String) (factor : ℚ) (r : Row) : Bool :=
  let Q1 := quantileVal (colVals d columna) (1/4)
  let Q3 := quantileVal (colVals d columna) (3/4)
  let IQR := valSub Q3 Q1
  let limite_inferior := valSub Q1 (valMul (.fin factor) IQR)
  let limite_superior := valAdd Q3 (valMul (.fin factor) IQR)
  valLt (r columna) limite_inferior || valLt limite_superior (r columna)

/-- Write a column (`df[c] = ...`): an existing column is overwritten in
place, a new one is appended at the end of the schema.  The written value
may depend on the row. -/
def setCol (d : Dataset) (c : String) (f : Row → Val) : Dataset :=
  { cols := if c ∈ d.cols then d.cols else d.cols ++ [c],
    rows := d.rows.map (fun r => Function.update r c (f r)) }

/-- Keep only the rows whose value in column `c` is strictly positive,
when that column is present (`df = df[df[c] > 0]`); a `NaN` entry compares
false and the row is dropped. -/
def filterPosCol (d : Dataset) (c : String) : Dataset :=
  if c ∈ d.cols then
    { cols := d.cols, rows := d.rows.filter (fun r => valLt (.fin 0) (r c)) }
  else d

/-- Step 3 of the cleaner: when the price column is present, drop the rows
flagged by the IQR rule with factor `1.5`, the quartiles being computed on
the dataset as it stands at this step. -/
def removeOutliersPrice (d : Dataset) : Dataset :=
  if "MedHouseVal" ∈ d.cols then
    { cols := d.cols,
      rows := d.rows.filter (fun r => !(detectar_outliers_iqr d "MedHouseVal" (3/2) r)) }
  else d

/-- The cleaning pass of `limpiar_datos`, as a pure transformation of the
loaded dataset: drop all-null columns, drop duplicate rows, optionally drop
price outliers, drop rows with non-positive rooms or population, then
write the constant quality-score column. -/
def limpiar_datos (d : Dataset) (remove_outliers : Bool) : Dataset :=
  let d1 := dropNullCols d
  let d2 := drop_duplicates d1
  let d3 := if remove_outliers then removeOutliersPrice d2 else d2
  let d4 := filterPosCol d3 "AveRooms"
  let d5 := filterPosCol d4 "Population"
  setCol d5 "data_quality_score" (fun _ => .fin 1)

/-- Assign a bin label given the running lower edge and the remaining
(upper edge, label) pairs: a value falls in a bin when it is above the
lower edge — weakly for the first bin of `qcut`, strictly otherwise — and
weakly below the upper edge.  Values outside every bin, missing values and
labels map to `NaN`. -/
def binLabel (firstClosed : Bool) (lo : Val) : List (Val × String) → Val → Val
  | [], _ => .na
  | (hi, lab) :: rest, v =>
      if (if firstClosed then valLe lo v else valLt lo v) && valLe v hi then .str lab
      else binLabel false hi rest v

/-- `pd.cut`-style binning: `edges` lists the bin boundaries in increasing
order, each bin is left-open and right-closed, and `firstClosed` makes the
lowest bin include its left edge (as `pd.qcut` does). -/
def pdCut (edges : List Val) (labels : List String) (firstClosed : Bool) (v : Val) : Val :=
  match edges with
  | [] => .na
  | e :: rest => binLabel firstClosed e (rest.zip labels) v

/-- The bin edges `pd.qcut(xs, q=4)` computes: the `0, 1/4, 1/2, 3/4, 1`
quantiles of the data. -/
def qcutEdges (xs : List Val) : List Val :=
  [quantileVal xs 0, quantileVal xs (1/4), quantileVal xs (1/2),
   quantileVal xs (3/4), quantileVal xs 1]

/-- Does the (sorted) edge list contain two equal consecutive edges?
`pd.qcut` raises `ValueError: Bin edges must be unique` exactly then. -/
def hasDupEdges : List Val → Bool
  | a :: b :: t => a == b || hasDupEdges (b :: t)
  | _ => false

/-- One feature-derivation step: when the guard on the current dataset
holds (in the program, a check that the source columns are present), write
the derived column, otherwise silently skip the feature. -/
def featStep (P : Dataset → Prop) [DecidablePred P] (n : String)
    (g : Dataset → Row → Val) (d : Dataset) : Dataset :=
  if P d then setCol d n (g d) else d

/-- Feature 1 (`rooms_per_household`): rooms divided by bedrooms, the
infinities replaced by `NaN`, and missing results filled with the median
of the column (pandas `median` skips the invalid entries). -/
def fRooms : Dataset → Dataset :=
  featStep (fun d => "AveRooms" ∈ d.cols ∧ "AveBedrms" ∈ d.cols) "rooms_per_household"
    (fun d r => fillna
      (medianVal (d.rows.map (fun t => infToNa (valDiv (t "AveRooms") (t "AveBedrms")))))
      (infToNa (valDiv (r "AveRooms") (r "AveBedrms"))))

/-- Feature 2 (`population_density`): population over occupancy plus one. -/
def fPopDensity : Dataset → Dataset :=
  featStep (fun d => "Population" ∈ d.cols ∧ "AveOccup" ∈ d.cols) "population_density"
    (fun _ r => valDiv (r "Population") (valAdd (r "AveOccup") (.fin 1)))

/-- Feature 3 (`income_per_capita`): income over occupancy, unguarded. -/
def fIncomePerCapita : Dataset → Dataset :=
  featStep (fun d => "MedInc" ∈ d.cols ∧ "AveOccup" ∈ d.cols) "income_per_capita"
    (fun _ r => valDiv (r "MedInc") (r "AveOccup"))

/-- Feature 4 (`bedroom_ratio`): bedrooms over rooms plus `0.01`. -/
def fBedroomRatio : Dataset → Dataset :=
  featStep (fun d => "AveBedrms" ∈ d.cols ∧ "AveRooms" ∈ d.cols) "bedroom_ratio"
    (fun _ r => valDiv (r "AveBedrms") (valAdd (r "AveRooms") (.fin (1/100))))

/-- Feature 5 (`price_category`): `pd.qcut` on the price column into four
equal-frequency bins; fails when the empirical quartile edges are not all
distinct. -/
def fPriceCategory (d : Dataset) : Except String Dataset :=
  if "MedHouseVal" ∈ d.cols then
    if hasDupEdges (qcutEdges (colVals d "MedHouseVal")) then
      .error "Bin edges must be unique"
    else .ok (setCol d "price_category"
      (fun r => pdCut (qcutEdges (colVals d "MedHouseVal"))
        ["low", "medium", "high", "very_high"] true (r "MedHouseVal")))
  else .ok d

/-- Feature 6 (`income_category`): `pd.cut` with the fixed edges
`[0, 3, 5, 7, ∞]`; `pd.cut` bins are left-open and right-closed. -/
def fIncomeCategory : Dataset → Dataset :=
  featStep (fun d => "MedInc" ∈ d.cols) "income_category"
    (fun _ r => pdCut [.fin 0, .fin 3, .fin 5, .fin 7, .pinf]
      ["low", "medium", "high", "very_high"] false (r "MedInc"))

/-- Feature 7 (`house_age_category`): `pd.cut` with the fixed edges
`[0, 10, 25, 40, ∞]`. -/
def fAgeCategory : Dataset → Dataset :=
  featStep (fun d => "HouseAge" ∈ d.cols) "house_age_category"
    (fun _ r => pdCut [.fin 0, .fin 10, .fin 25, .fin 40, .pinf]
      ["new", "modern", "old", "very_old"] false (r "HouseAge"))

/-- The transcendental value of `log(1 + x)` is abstracted by a rational
stand-in; no verified claim observes the numeric value of a log column,
only its classification as finite (`x > −1`), `−∞` (`x = −1`), `+∞`
(`x = +∞`) or undefined (`x < −1` or missing), which this definition
models exactly as `np.log1p` does. -/
def log1pStandIn (q : ℚ) : ℚ := q

/-- `np.log1p` on a cell: finite above `−1`, `−∞` at `−1`, `NaN` below. -/
def log1pVal : Val → Val
  | .fin q => if -1 < q then .fin (log1pStandIn q) else if q = -1 then .ninf else .na
  | .pinf => .pinf
  | _ => .na

/-- Feature 8 (`{col}_log`): `np.log1p` of one source column. -/
def fLog (src : String) : Dataset → Dataset :=
  featStep (fun d => src ∈ d.cols) (src ++ "_log") (fun _ r => log1pVal (r src))

/-- Feature 9 (`income_age_interaction`): income times house age. -/
def fInteraction : Dataset → Dataset :=
  featStep (fun d => "MedInc" ∈ d.cols ∧ "HouseAge" ∈ d.cols) "income_age_interaction"
    (fun _ r => valMul (r "MedInc") (r "HouseAge"))

/-- Feature 10 (`income_zscore`): income standardized by the column mean
and standard deviation (`ddof = 1`). -/
def fZscore : Dataset → Dataset :=
  featStep (fun d => "MedInc" ∈ d.cols) "income_zscore"
    (fun d r => valDiv (valSub (r "MedInc") (meanVal (colVals d "MedInc")))
      (stdVal (colVals d "MedInc")))

/-- The feature-derivation pass of `crear_features`, as a transformation of
the loaded dataset: the ten feature steps in program order, each applied
only when its source columns are present; the only failing step is the
quartile binning of the price column. -/
def crear_features (d : Dataset) : Except String Dataset :=
  let d1 := fRooms d
  let d2 := fPopDensity d1
  let d3 := fIncomePerCapita d2
  let d4 := fBedroomRatio d3
  match fPriceCategory d4 with
  | .error e => .error e
  | .ok d5 =>
    let d6 := fIncomeCategory d5
    let d7 := fAgeCategory d6
    let d8 := fLog "MedInc" d7
    let d9 := fLog "HouseAge" d8
    let d10 := fLog "AveRooms" d9
    let d11 := fLog "Population" d10
    let d12 := fInteraction d11
    .ok (fZscore d12)

/-- The error kinds a pipeline stage surfaces: the expected input snapshot
is absent (`FileNotFoundError`), or a value error from within the stage
(`pd.qcut` on non-unique bin edges). -/
inductive PipelineError where
  | missingInput : PipelineError
  | valueError : String → PipelineError
deriving DecidableEq

/-- The cleaning stage as invoked on a snapshot: the input is `none` when
the raw file `raw_data_{year}.csv` cannot be located, in which case the
stage fails with the missing-input error before any processing; otherwise
the loaded dataset is cleaned. -/
def limpiar_datos_run (rawInput : Option Dataset) (remove_outliers : Bool) :
    Except PipelineError Dataset :=
  match rawInput with
  | none => .error .missingInput
  | some d => .ok (limpiar_datos d remove_outliers)

/-- The feature stage as invoked on a snapshot: the input is `none` when
the cleaned file `clean_data_{year}.csv` cannot be located, in which case
the stage fails with the missing-input error; otherwise the loaded dataset
is processed, a `qcut` failure surfacing as a value error. -/
def crear_features_run (cleanInput : Option Dataset) : Except PipelineError Dataset :=
  match cleanInput with
  | none => .error .missingInput
  | some d =>
      match crear_features d with
      | .ok o => .ok o
      | .error m => .error (.valueError m)

/-! Computation lemmas for the cell arithmetic. -/

@[simp] theorem valAdd_fin (a b : ℚ) : valAdd (.fin a) (.fin b) = .fin (a + b) := rfl

@[simp] theorem valNeg_fin (a : ℚ) : valNeg (.fin a) = .fin (-a) := rfl

@[simp] theorem valSub_fin (a b : ℚ) : valSub (.fin a) (.fin b) = .fin (a - b) := by
  simp [valSub, sub_eq_add_neg]

@[simp] theorem valMul_fin (a b : ℚ) : valMul (.fin a) (.fin b) = .fin (a * b) := rfl

@[simp] theorem valLt_fin (a b : ℚ) : valLt (.fin a) (.fin b) = decide (a < b) := rfl

@[simp] theorem valLe_fin (a b : ℚ) : valLe (.fin a) (.fin b) = decide (a ≤ b) := rfl

@[simp] theorem isFin_fin (q : ℚ) : isFin (.fin q) = true := rfl

theorem isFin_iff {v : Val} : isFin v = true ↔ ∃ q : ℚ, v = .fin q := by
  cases v <;> simp [isFin]

theorem isNum_of_isFin {v : Val} (h : isFin v = true) : isNum v = true := by
  cases v <;> simp_all [isFin, isNum]

theorem valDiv_fin_of_ne {a b : ℚ} (hb : b ≠ 0) :
    valDiv (.fin a) (.fin b) = .fin (a / b) := by
  simp [valDiv, hb]

/-! Sorting and quantiles over all-finite data. -/

theorem insertVal_length (v : Val) (xs : List Val) :
    (insertVal v xs).length = xs.length + 1 := by
  induction xs with
  | nil => rfl
  | cons x xs ih => by_cases h : valLe v x = true <;> simp [insertVal, h, ih]

theorem sortVals_length (xs : List Val) : (sortVals xs).length = xs.length := by
  induction xs with
  | nil => rfl
  | cons x xs ih => simp [sortVals, List.foldr] at ih ⊢; rw [insertVal_length, ih]

theorem mem_insertVal {w v : Val} {xs : List Val} (h : w ∈ insertVal v xs) :
    w = v ∨ w ∈ xs := by
  induction xs with
  | nil => simpa [insertVal] using h
  | cons x xs ih =>
      by_cases hc : valLe v x = true
      · simpa [insertVal, hc] using h
      · simp [insertVal, hc] at h
        rcases h with h | h
        · exact .inr (by simp [h])
        · rcases ih h with h | h
          · exact .inl h
          · exact .inr (by simp [h])

theorem mem_sortVals {w : Val} {xs : List Val} (h : w ∈ sortVals xs) : w ∈ xs := by
  induction xs with
  | nil => simpa [sortVals] using h
  | cons x xs ih =>
      rcases mem_insertVal (by simpa [sortVals] using h) with h' | h'
      · simp [h']
      · exact List.mem_cons_of_mem _ (ih (by simpa [sortVals] using h'))

theorem quantileVal_fin {xs : List Val} (hne : xs ≠ [])
    (hfin : ∀ v ∈ xs, isFin v = true) {q : ℚ} (hq0 : 0 ≤ q) (hq1 : q ≤ 1) :
    ∃ p : ℚ, quantileVal xs q = .fin p := by
  have hfilter : xs.filter isNum = xs :=
    List.filter_eq_self.mpr (fun v hv => isNum_of_isFin (hfin v hv))
  have hlen : (sortVals xs).length = xs.length := sortVals_length xs
  have hsfin : ∀ v ∈ sortVals xs, isFin v = true := fun v hv => hfin v (mem_sortVals hv)
  have hysne : (sortVals xs).length ≠ 0 := by
    rw [hlen]; exact fun h => hne (List.length_eq_zero.mp h)
  have hnenil : sortVals xs ≠ [] := by
    intro hnil; exact hysne (by rw [hnil]; rfl)
  have hempty : (sortVals xs).isEmpty = false := by
    cases hys : sortVals xs with
    | nil => exact absurd hys hnenil
    | cons a l => rfl
  rw [quantileVal, hfilter]
  simp only [hempty, Bool.false_eq_true, if_false]
  set ys := sortVals xs with hys
  set n := ys.length with hn
  have hn1 : 1 ≤ n := Nat.one_le_iff_ne_zero.mpr hysne
  set h : ℚ := ((n : ℚ) - 1) * q with hh
  have hh0 : 0 ≤ h := by
    apply mul_nonneg _ hq0
    have : (1 : ℚ) ≤ (n : ℚ) := by exact_mod_cast hn1
    linarith
  have hhle : h ≤ (n : ℚ) - 1 := by
    have hn0 : (0 : ℚ) ≤ (n : ℚ) - 1 := by
      have : (1 : ℚ) ≤ (n : ℚ) := by exact_mod_cast hn1
      linarith
    calc h = ((n : ℚ) - 1) * q := rfl
    _ ≤ ((n : ℚ) - 1) * 1 := by exact mul_le_mul_of_nonneg_left hq1 hn0
    _ = (n : ℚ) - 1 := mul_one _
  set i : ℕ := (⌊h⌋).toNat with hi
  have hilt : i < n := by
    have h1 : ⌊h⌋ ≤ ⌊(n : ℚ) - 1⌋ := Int.floor_le_floor hhle
    have h2 : ⌊(n : ℚ) - 1⌋ = (n : ℤ) - 1 := by
      rw [show ((n : ℚ) - 1) = (((n : ℤ) - 1 : ℤ) : ℚ) by push_cast; ring, Int.floor_intCast]
    have h3 : ⌊h⌋ ≤ (n : ℤ) - 1 := by omega
    omega
  have hlofin : isFin (ys.getD i .na) = true := by
    rw [List.getD_eq_get _ _ hilt]
    exact hsfin _ (ys.get_mem _ _)
  obtain ⟨plo, hplo⟩ := isFin_iff.mp hlofin
  have hhifin : isFin (ys.getD (i + 1) (ys.getD i .na)) = true := by
    by_cases hcase : i + 1 < n
    · rw [List.getD_eq_get _ _ hcase]
      exact hsfin _ (ys.get_mem _ _)
    · rw [List.getD_eq_default _ _ (by omega)]
      exact hlofin
  obtain ⟨phi, hphi⟩ := isFin_iff.mp hhifin
  rw [hplo] at hphi
  by_cases hcase : h = (i : ℚ)
  · exact ⟨plo, by rw [if_pos hcase, hplo]⟩
  · refine ⟨plo + (h - (i : ℚ)) * (phi - plo), ?_⟩
    rw [if_neg hcase, hplo, hphi, valSub_fin, valMul_fin, valAdd_fin]

/-! Structural lemmas about the cleaning steps. -/

theorem dropNullCols_rows (d : Dataset) : (dropNullCols d).rows = d.rows := rfl

theorem mem_dropDupRowsAux {cols : List String} {r : Row} :
    ∀ {seen : List (List Val)} {rs : List Row}, r ∈ dropDupRowsAux cols seen rs → r ∈ rs := by
  intro seen rs
  induction rs generalizing seen with
  | nil => simp [dropDupRowsAux]
  | cons x xs ih =>
      intro h
      by_cases hc : rowKey cols x ∈ seen
      · simp only [dropDupRowsAux, if_pos hc] at h
        exact List.mem_cons_of_mem _ (ih h)
      · simp only [dropDupRowsAux, if_neg hc, List.mem_cons] at h
        rcases h with h | h
        · simp [h]
        · exact List.mem_cons_of_mem _ (ih h)

theorem drop_duplicates_subset {d : Dataset} {r : Row}
    (h : r ∈ (drop_duplicates d).rows) : r ∈ d.rows := mem_dropDupRowsAux h

theorem drop_duplicates_cols (d : Dataset) : (drop_duplicates d).cols = d.cols := rfl

theorem removeOutliersPrice_cols (d : Dataset) : (removeOutliersPrice d).cols = d.cols := by
  unfold removeOutliersPrice; split <;> rfl

theorem removeOutliersPrice_subset {d : Dataset} {r : Row}
    (h : r ∈ (removeOutliersPrice d).rows) : r ∈ d.rows := by
  unfold removeOutliersPrice at h
  split at h
  · exact (List.mem_filter.mp h).1
  · exact h

theorem filterPosCol_cols (d : Dataset) (c : String) : (filterPosCol d c).cols = d.cols := by
  unfold filterPosCol; split <;> rfl

theorem filterPosCol_subset {d : Dataset} {c : String} {r : Row}
    (h : r ∈ (filterPosCol d c).rows) : r ∈ d.rows := by
  unfold filterPosCol at h
  split at h
  · exact (List.mem_filter.mp h).1
  · exact h

theorem mem_setCol {d : Dataset} {c : String} {f : Row → Val} {r : Row}
    (h : r ∈ (setCol d c f).rows) :
    ∃ r' ∈ d.rows, r = Function.update r' c (f r') := by
  obtain ⟨r', hr', heq⟩ := List.mem_map.mp h
  exact ⟨r', hr', heq.symm⟩

theorem mem_limpiar_rows {d : Dataset} {ro : Bool} {r : Row}
    (h : r ∈ (limpiar_datos d ro).rows) :
    ∃ r' ∈ (filterPosCol (filterPosCol
        (if ro then removeOutliersPrice (drop_duplicates (dropNullCols d))
         else drop_duplicates (dropNullCols d)) "AveRooms") "Population").rows,
      r = Function.update r' "data_quality_score" (.fin 1) := by
  simp only [limpiar_datos] at h
  exact mem_setCol h

theorem price_col_mem_dropNull {d : Dataset} {r : Row}
    (hcol : "MedHouseVal" ∈ d.cols) (hr : r ∈ d.rows)
    (hfin : isFin (r "MedHouseVal") = true) :
    "MedHouseVal" ∈ (dropNullCols d).cols := by
  refine List.mem_filter.mpr ⟨hcol, ?_⟩
  rw [Bool.not_eq_eq_eq_not, Bool.not_true, List.all_eq_false]
  refine ⟨r, hr, ?_⟩
  obtain ⟨q, hq⟩ := isFin_iff.mp hfin
  simp [hq]

/-- C1 as amended: for a raw dataset containing the price column in which
every price value is a finite number, every row surviving the full
cleaning pass (with outlier removal enabled, default factor `1.5`) has a
price within the closed interval `[Q1 − 1.5·IQR, Q3 + 1.5·IQR]`, the
quartiles being computed on the post-deduplication data; and conversely,
because the outlier test uses strict inequalities, every post-deduplication
row whose price lies in that closed interval — in particular a row whose
price equals a bound exactly — is kept by the outlier-removal step.
(The original claim, quantified over every raw dataset, fails when a price
entry is missing: such a row survives the wholly-false `NaN` comparisons
but its price lies in no interval.) -/
theorem C1_price_outlier_bound (d : Dataset)
    (hcol : "MedHouseVal" ∈ d.cols)
    (hfin : ∀ r ∈ d.rows, isFin (r "MedHouseVal") = true) :
    (∀ r ∈ (limpiar_datos d true).rows,
      ∃ p q1 q3 : ℚ,
        r "MedHouseVal" = .fin p ∧
        quantileVal (colVals (drop_duplicates (dropNullCols d)) "MedHouseVal") (1/4) = .fin q1 ∧
        quantileVal (colVals (drop_duplicates (dropNullCols d)) "MedHouseVal") (3/4) = .fin q3 ∧
        q1 - (3/2) * (q3 - q1) ≤ p ∧ p ≤ q3 + (3/2) * (q3 - q1)) ∧
    (∀ r ∈ (drop_duplicates (dropNullCols d)).rows, ∀ p q1 q3 : ℚ,
      r "MedHouseVal" = .fin p →
      quantileVal (colVals (drop_duplicates (dropNullCols d)) "MedHouseVal") (1/4) = .fin q1 →
      quantileVal (colVals (drop_duplicates (dropNullCols d)) "MedHouseVal") (3/4) = .fin q3 →
      q1 - (3/2) * (q3 - q1) ≤ p → p ≤ q3 + (3/2) * (q3 - q1) →
      r ∈ (removeOutliersPrice (drop_duplicates (dropNullCols d))).rows) := by
  set d2 := drop_duplicates (dropNullCols d) with hd2
  constructor
  · intro r hr
    obtain ⟨r5, hr5, hreq⟩ := mem_limpiar_rows hr
    rw [if_pos rfl] at hr5
    have hr3 : r5 ∈ (removeOutliersPrice d2).rows :=
      filterPosCol_subset (filterPosCol_subset hr5)
    have hrd2 : r5 ∈ d2.rows := removeOutliersPrice_subset hr3
    have hrd : r5 ∈ d.rows := by
      have := drop_duplicates_subset (d := dropNullCols d) hrd2
      rwa [dropNullCols_rows] at this
    have hpfin : isFin (r5 "MedHouseVal") = true := hfin r5 hrd
    obtain ⟨p, hp⟩ := isFin_iff.mp hpfin
    have hcolmem : "MedHouseVal" ∈ d2.cols := by
      rw [hd2, drop_duplicates_cols]
      exact price_col_mem_dropNull hcol hrd hpfin
    have hvals_fin : ∀ v ∈ colVals d2 "MedHouseVal", isFin v = true := by
      intro v hv
      obtain ⟨r', hr', hveq⟩ := List.mem_map.mp hv
      have hr'd : r' ∈ d.rows := by
        have := drop_duplicates_subset (d := dropNullCols d) hr'
        rwa [dropNullCols_rows] at this
      rw [← hveq]
      exact hfin r' hr'd
    have hvals_ne : colVals d2 "MedHouseVal" ≠ [] :=
      List.ne_nil_of_mem (List.mem_map_of_mem _ hrd2)
    obtain ⟨q1, hq1⟩ := quantileVal_fin hvals_ne hvals_fin (q := 1/4) (by norm_num) (by norm_num)
    obtain ⟨q3, hq3⟩ := quantileVal_fin hvals_ne hvals_fin (q := 3/4) (by norm_num) (by norm_num)
    have hmask : detectar_outliers_iqr d2 "MedHouseVal" (3/2) r5 = false := by
      rw [removeOutliersPrice, if_pos hcolmem] at hr3
      have := (List.mem_filter.mp hr3).2
      rwa [Bool.not_eq_eq_eq_not, Bool.not_true] at this
    rw [detectar_outliers_iqr] at hmask
    simp only [hq1, hq3, valSub_fin, valMul_fin, valAdd_fin, hp, valLt_fin,
      Bool.or_eq_false_iff, decide_eq_false_iff_not, not_lt] at hmask
    refine ⟨p, q1, q3, ?_, hq1, hq3, ?_, ?_⟩
    · rw [hreq, Function.update_noteq (by decide)]
      exact hp
    · calc q1 - 3/2 * (q3 - q1) ≤ q1 - 3/2 * (q3 - q1) := le_refl _
      _ ≤ p := by have := hmask.1; linarith
    · have := hmask.2; linarith
  · intro r hrd2 p q1 q3 hp hq1 hq3 hlo hhi
    have hrd : r ∈ d.rows := by
      have := drop_duplicates_subset (d := dropNullCols d) hrd2
      rwa [dropNullCols_rows] at this
    have hpfin : isFin (r "MedHouseVal") = true := by rw [hp]; rfl
    have hcolmem : "MedHouseVal" ∈ d2.cols := by
      rw [hd2, drop_duplicates_cols]
      exact price_col_mem_dropNull hcol hrd hpfin
    rw [removeOutliersPrice, if_pos hcolmem]
    refine List.mem_filter.mpr ⟨hrd2, ?_⟩
    rw [Bool.not_eq_eq_eq_not, Bool.not_true, detectar_outliers_iqr]
    simp only [hq1, hq3, valSub_fin, valMul_fin, valAdd_fin, hp, valLt_fin,
      Bool.or_eq_false_iff, decide_eq_false_iff_not, not_lt]
    constructor <;> linarith

/-- A concrete row holding only a price value. -/
def priceRow (v : Val) : Row := fun c => if c = "MedHouseVal" then v else .na

/-- A concrete one-row dataset with the single finite price `2`. -/
def dPrice1 : Dataset := { cols := ["MedHouseVal"], rows := [priceRow (.fin 2)] }

/-- A concrete five-row dataset with distinct prices `0, 1, 2, 3, 6`: the
quartiles are `Q1 = 1` and `Q3 = 3`, `IQR = 2`, and the row with price `6`
sits exactly on the upper bound `Q3 + 1.5·IQR = 6`. -/
def dPrice5 : Dataset :=
  { cols := ["MedHouseVal"],
    rows := [priceRow (.fin 0), priceRow (.fin 1), priceRow (.fin 2),
             priceRow (.fin 3), priceRow (.fin 6)] }

/-- Witness for C1: the amended theorem applied to `dPrice5`, where the
row with price `6` lies exactly on the upper bound `Q3 + 1.5·IQR = 6` and
is kept by the outlier-removal step. -/
theorem C1_price_outlier_bound_witness :
    ("MedHouseVal" ∈ dPrice5.cols ∧ ∀ r ∈ dPrice5.rows, isFin (r "MedHouseVal") = true) ∧
    (∀ r ∈ (limpiar_datos dPrice5 true).rows,
      ∃ p q1 q3 : ℚ,
        r "MedHouseVal" = .fin p ∧
        quantileVal (colVals (drop_duplicates (dropNullCols dPrice5)) "MedHouseVal") (1/4) = .fin q1 ∧
        quantileVal (colVals (drop_duplicates (dropNullCols dPrice5)) "MedHouseVal") (3/4) = .fin q3 ∧
        q1 - (3/2) * (q3 - q1) ≤ p ∧ p ≤ q3 + (3/2) * (q3 - q1)) ∧
    priceRow (.fin 6) ∈ (removeOutliersPrice (drop_duplicates (dropNullCols dPrice5))).rows := by
  have hfin : ∀ r ∈ dPrice5.rows, isFin (r "MedHouseVal") = true := by
    simp +decide [dPrice5, priceRow, isFin]
  have hC := C1_price_outlier_bound dPrice5 (by decide) hfin
  have h2 : drop_duplicates (dropNullCols dPrice5) = dPrice5 := by
    simp +decide [drop_duplicates, dropNullCols, dropDupRowsAux, rowKey, dPrice5, priceRow,
      List.filter]
  have hcv : colVals dPrice5 "MedHouseVal" = [.fin 0, .fin 1, .fin 2, .fin 3, .fin 6] := by
    simp [colVals, dPrice5, priceRow]
  have hq1 : quantileVal (colVals (drop_duplicates (dropNullCols dPrice5)) "MedHouseVal") (1/4)
      = .fin 1 := by
    rw [h2, hcv]
    norm_num [quantileVal, sortVals, insertVal, isNum, valAdd, valSub, valMul, valNeg]
  have hq3 : quantileVal (colVals (drop_duplicates (dropNullCols dPrice5)) "MedHouseVal") (3/4)
      = .fin 3 := by
    rw [h2, hcv]
    norm_num [quantileVal, sortVals, insertVal, isNum, valAdd, valSub, valMul, valNeg]
    simp
  have hmem : priceRow (.fin 6) ∈ (drop_duplicates (dropNullCols dPrice5)).rows := by
    rw [h2]
    exact List.mem_cons_of_mem _ (List.mem_cons_of_mem _ (List.mem_cons_of_mem _
      (List.mem_cons_of_mem _ (List.mem_singleton.mpr rfl))))
  refine ⟨⟨by decide, hfin⟩, hC.1, ?_⟩
  exact hC.2 (priceRow (.fin 6)) hmem 6 1 3 (by simp [priceRow]) hq1 hq3
    (by norm_num) (by norm_num)

/-- A concrete dataset with prices `1`, `2` and one missing price. -/
def dPriceNa : Dataset :=
  { cols := ["MedHouseVal"],
    rows := [priceRow (.fin 1), priceRow (.fin 2), priceRow .na] }

/-- Counterexample to C1 as stated: on the raw dataset `dPriceNa`, whose
price column holds `1`, `2` and one missing value, the missing-price row
survives the full cleaning pass (every comparison against `NaN` is false,
so the IQR test never flags it), yet its price value lies in no closed
interval, falsifying the universally-quantified claim. -/
theorem C1_counterexample :
    ¬ (∀ r ∈ (limpiar_datos dPriceNa true).rows,
        ∃ p q1 q3 : ℚ,
          r "MedHouseVal" = .fin p ∧
          quantileVal (colVals (drop_duplicates (dropNullCols dPriceNa)) "MedHouseVal") (1/4) = .fin q1 ∧
          quantileVal (colVals (drop_duplicates (dropNullCols dPriceNa)) "MedHouseVal") (3/4) = .fin q3 ∧
          q1 - (3/2) * (q3 - q1) ≤ p ∧ p ≤ q3 + (3/2) * (q3 - q1)) := by
  intro hclaim
  have h2 : drop_duplicates (dropNullCols dPriceNa) = dPriceNa := by
    simp +decide [drop_duplicates, dropNullCols, dropDupRowsAux, rowKey, dPriceNa, priceRow,
      List.filter]
  have hcv : colVals dPriceNa "MedHouseVal" = [.fin 1, .fin 2, .na] := by
    simp [colVals, dPriceNa, priceRow]
  have hq1 : quantileVal (colVals dPriceNa "MedHouseVal") (1/4) = .fin (5/4) := by
    rw [hcv]
    norm_num [quantileVal, sortVals, insertVal, isNum, valAdd, valSub, valMul, valNeg]
  have hq3 : quantileVal (colVals dPriceNa "MedHouseVal") (3/4) = .fin (7/4) := by
    rw [hcv]
    norm_num [quantileVal, sortVals, insertVal, isNum, valAdd, valSub, valMul, valNeg]
  have hdet : ∀ r : Row, detectar_outliers_iqr dPriceNa "MedHouseVal" (3/2) r
      = (valLt (r "MedHouseVal") (.fin (1/2)) || valLt (.fin (5/2)) (r "MedHouseVal")) := by
    intro r
    rw [detectar_outliers_iqr, hq1, hq3]
    norm_num
  have hmem : Val.na ∈ (limpiar_datos dPriceNa true).rows.map (fun r => r "MedHouseVal") := by
    simp only [limpiar_datos, h2, if_pos rfl]
    rw [removeOutliersPrice, if_pos (by decide)]
    simp only [hdet]
    norm_num [filterPosCol, setCol, dPriceNa, priceRow, valLt, List.filter]
    simp +decide [Function.update, priceRow]
  obtain ⟨r, hr, hrna⟩ := List.mem_map.mp hmem
  obtain ⟨p, _, _, hp, _⟩ := hclaim r hr
  rw [hrna] at hp
  exact absurd hp (by simp)

theorem limpiar_empty_rows (d : Dataset) (b : Bool) (h : d.rows = []) :
    (limpiar_datos d b).cols = ["data_quality_score"] ∧ (limpiar_datos d b).rows = [] := by
  have h1 : dropNullCols d = { cols := [], rows := [] } := by
    simp [dropNullCols, h]
  simp [limpiar_datos, h1, drop_duplicates, dropDupRowsAux, removeOutliersPrice,
    filterPosCol, setCol]

/-- C10: on a zero-row input every column is vacuously all-null and is
dropped by the null-column pruning, so the cleaner returns a zero-row
dataset whose only column is the quality-score column: the column schema
of an empty input is not preserved. -/
theorem C10_empty_input (d : Dataset) (b : Bool) (h : d.rows = []) :
    (limpiar_datos d b).cols = ["data_quality_score"] ∧ (limpiar_datos d b).rows = [] :=
  limpiar_empty_rows d b h

/-- A concrete zero-row dataset with one declared column. -/
def dEmptyRows : Dataset := { cols := ["MedInc"], rows := [] }

/-- Witness for C10: the empty-input theorem applied to the concrete
zero-row dataset `dEmptyRows`, whose declared income column is dropped. -/
theorem C10_empty_input_witness :
    dEmptyRows.rows = [] ∧
    (limpiar_datos dEmptyRows true).cols = ["data_quality_score"] ∧
    (limpiar_datos dEmptyRows true).rows = [] :=
  ⟨rfl, C10_empty_input dEmptyRows true rfl⟩

/-- C7 as amended: after cleaning, every surviving row has a strictly
positive rooms value provided the rooms column is present and not entirely
null in the input, and likewise for the population column.  (The original
claim asked this for any input merely containing the column: it fails when
the column is entirely null, because step 1 then drops the column before
the range-validation filter can run, and rows survive with a missing
rooms value.) -/
theorem C7_positive_rooms_population (d : Dataset) :
    (("AveRooms" ∈ d.cols ∧ ∃ r ∈ d.rows, r "AveRooms" ≠ .na) →
      ∀ r ∈ (limpiar_datos d true).rows, valLt (.fin 0) (r "AveRooms") = true) ∧
    (("Population" ∈ d.cols ∧ ∃ r ∈ d.rows, r "Population" ≠ .na) →
      ∀ r ∈ (limpiar_datos d true).rows, valLt (.fin 0) (r "Population") = true) := by
  have hcols3 : (removeOutliersPrice (drop_duplicates (dropNullCols d))).cols
      = (dropNullCols d).cols := by
    rw [removeOutliersPrice_cols, drop_duplicates_cols]
  constructor
  · rintro ⟨hc, rw0, hrw0, hrna⟩ r hr
    obtain ⟨r5, hr5, hreq⟩ := mem_limpiar_rows hr
    rw [if_pos rfl] at hr5
    have hcmem : "AveRooms" ∈ (removeOutliersPrice (drop_duplicates (dropNullCols d))).cols := by
      rw [hcols3]
      refine List.mem_filter.mpr ⟨hc, ?_⟩
      rw [Bool.not_eq_eq_eq_not, Bool.not_true, List.all_eq_false]
      exact ⟨rw0, hrw0, by simpa using hrna⟩
    have hr4 : r5 ∈ (filterPosCol (removeOutliersPrice (drop_duplicates (dropNullCols d)))
        "AveRooms").rows := filterPosCol_subset hr5
    rw [filterPosCol, if_pos hcmem] at hr4
    have hpos := (List.mem_filter.mp hr4).2
    rw [hreq, Function.update_noteq (by decide)]
    exact hpos
  · rintro ⟨hc, rw0, hrw0, hrna⟩ r hr
    obtain ⟨r5, hr5, hreq⟩ := mem_limpiar_rows hr
    rw [if_pos rfl] at hr5
    have hcmem : "Population" ∈ (filterPosCol (removeOutliersPrice
        (drop_duplicates (dropNullCols d))) "AveRooms").cols := by
      rw [filterPosCol_cols, hcols3]
      refine List.mem_filter.mpr ⟨hc, ?_⟩
      rw [Bool.not_eq_eq_eq_not, Bool.not_true, List.all_eq_false]
      exact ⟨rw0, hrw0, by simpa using hrna⟩
    rw [filterPosCol, if_pos hcmem] at hr5
    have hpos := (List.mem_filter.mp hr5).2
    rw [hreq, Function.update_noteq (by decide)]
    exact hpos

/-- A concrete row with rooms `2` and population `3`. -/
def rRoomsPop : Row :=
  fun c => if c = "AveRooms" then .fin 2 else if c = "Population" then .fin 3 else .na

/-- A concrete one-row dataset with positive rooms and population. -/
def dRoomsPop : Dataset := { cols := ["AveRooms", "Population"], rows := [rRoomsPop] }

/-- Witness for C7: the amended positivity theorem applied to the concrete
dataset `dRoomsPop`. -/
theorem C7_positive_rooms_population_witness :
    (∀ r ∈ (limpiar_datos dRoomsPop true).rows, valLt (.fin 0) (r "AveRooms") = true) ∧
    (∀ r ∈ (limpiar_datos dRoomsPop true).rows, valLt (.fin 0) (r "Population") = true) :=
  ⟨(C7_positive_rooms_population dRoomsPop).1
      ⟨by decide, rRoomsPop, by simp [dRoomsPop], by simp [rRoomsPop]⟩,
   (C7_positive_rooms_population dRoomsPop).2
      ⟨by decide, rRoomsPop, by simp [dRoomsPop], by simp [rRoomsPop]⟩⟩

/-- A concrete dataset whose rooms column is entirely null while the price
column carries a value. -/
def dRoomsNull : Dataset :=
  { cols := ["AveRooms", "MedHouseVal"], rows := [priceRow (.fin 1)] }

/-- Counterexample to C7 as stated: in `dRoomsNull` the rooms column is
present in the input but entirely null, so step 1 drops it; the single row
survives cleaning with a missing rooms value, which is not strictly
positive. -/
theorem C7_counterexample :
    ¬ ("AveRooms" ∈ dRoomsNull.cols →
        ∀ r ∈ (limpiar_datos dRoomsNull true).rows,
          valLt (.fin 0) (r "AveRooms") = true) := by
  intro hclaim
  have h1 : dropNullCols dRoomsNull = { cols := ["MedHouseVal"], rows := [priceRow (.fin 1)] } := by
    simp +decide [dropNullCols, dRoomsNull, priceRow, List.filter]
  have hmem : Val.na ∈ (limpiar_datos dRoomsNull true).rows.map (fun r => r "AveRooms") := by
    simp only [limpiar_datos, h1, if_pos rfl]
    norm_num [drop_duplicates, dropDupRowsAux, rowKey, removeOutliersPrice,
      detectar_outliers_iqr, quantileVal, sortVals, insertVal, isNum, colVals,
      valAdd, valSub, valMul, valNeg, valLt, filterPosCol, setCol, priceRow, List.filter]
    simp +decide [Function.update, priceRow]
  obtain ⟨r, hr, hrna⟩ := List.mem_map.mp hmem
  have hpos := hclaim (by decide) r hr
  rw [hrna] at hpos
  simp [valLt] at hpos

/-! Identity lemmas for the cleaning steps, used for the second-pass
analysis. -/

theorem dropNullCols_eq_self {d : Dataset}
    (h : ∀ c ∈ d.cols, ∃ r ∈ d.rows, r c ≠ .na) : dropNullCols d = d := by
  obtain ⟨cols, rows⟩ := d
  simp only [dropNullCols, Dataset.mk.injEq, and_true]
  apply List.filter_eq_self.mpr
  intro c hc
  obtain ⟨r, hr, hrne⟩ := h c hc
  rw [Bool.not_eq_eq_eq_not, Bool.not_true, List.all_eq_false]
  exact ⟨r, hr, by simpa using hrne⟩

theorem dropDupRowsAux_eq_self {cols : List String} :
    ∀ {seen : List (List Val)} {rs : List Row},
      (rs.map (rowKey cols)).Nodup → (∀ r ∈ rs, rowKey cols r ∉ seen) →
      dropDupRowsAux cols seen rs = rs := by
  intro seen rs
  induction rs generalizing seen with
  | nil => intro _ _; rfl
  | cons x xs ih =>
      intro hnodup hseen
      rw [List.map_cons, List.nodup_cons] at hnodup
      rw [dropDupRowsAux, if_neg (hseen x (by simp))]
      congr 1
      apply ih hnodup.2
      intro r hr
      simp only [List.mem_cons]
      rintro (heq | hmem)
      · exact hnodup.1 (heq ▸ List.mem_map_of_mem _ hr)
      · exact hseen r (List.mem_cons_of_mem _ hr) hmem

theorem drop_duplicates_eq_self {d : Dataset}
    (h : (d.rows.map (rowKey d.cols)).Nodup) : drop_duplicates d = d := by
  obtain ⟨cols, rows⟩ := d
  simp only [drop_duplicates, Dataset.mk.injEq, true_and]
  exact dropDupRowsAux_eq_self h (by simp)

theorem removeOutliersPrice_eq_self {d : Dataset}
    (h : ∀ r ∈ d.rows, detectar_outliers_iqr d "MedHouseVal" (3/2) r = false) :
    removeOutliersPrice d = d := by
  rw [removeOutliersPrice]
  split
  · obtain ⟨cols, rows⟩ := d
    simp only [Dataset.mk.injEq, true_and]
    apply List.filter_eq_self.mpr
    intro r hr
    rw [Bool.not_eq_eq_eq_not, Bool.not_true]
    exact h r hr
  · rfl

theorem filterPosCol_eq_self {d : Dataset} {c : String}
    (h : ∀ r ∈ d.rows, valLt (.fin 0) (r c) = true) : filterPosCol d c = d := by
  rw [filterPosCol]
  split
  · obtain ⟨cols, rows⟩ := d
    simp only [Dataset.mk.injEq, true_and]
    exact List.filter_eq_self.mpr h
  · rfl

theorem setCol_eq_self {d : Dataset} {c : String} {f : Row → Val}
    (hc : c ∈ d.cols) (hv : ∀ r ∈ d.rows, f r = r c) : setCol d c f = d := by
  obtain ⟨cols, rows⟩ := d
  simp only [setCol, if_pos hc, Dataset.mk.injEq, true_and]
  conv_rhs => rw [← List.map_id rows]
  apply List.map_congr_left
  intro r hr
  simp [hv r hr, Function.update_eq_self]

theorem limpiar_inner_cols (d : Dataset) (ro : Bool) :
    (filterPosCol (filterPosCol
      (if ro then removeOutliersPrice (drop_duplicates (dropNullCols d))
       else drop_duplicates (dropNullCols d)) "AveRooms") "Population").cols
    = (dropNullCols d).cols := by
  cases ro <;>
    simp [filterPosCol_cols, removeOutliersPrice_cols, drop_duplicates_cols]

theorem limpiar_cols_mem {d : Dataset} {ro : Bool} {c : String}
    (hne : c ≠ "data_quality_score") (h : c ∈ (limpiar_datos d ro).cols) :
    c ∈ (dropNullCols d).cols := by
  simp only [limpiar_datos, setCol] at h
  rw [limpiar_inner_cols] at h
  split at h
  · exact h
  · rcases List.mem_append.mp h with h' | h'
    · exact h'
    · exact absurd (by simpa using h') hne

theorem setCol_mem_cols (d : Dataset) (c : String) (f : Row → Val) :
    c ∈ (setCol d c f).cols := by
  rw [setCol]
  split
  · assumption
  · simp

theorem limpiar_qual_mem (d : Dataset) (ro : Bool) :
    "data_quality_score" ∈ (limpiar_datos d ro).cols :=
  setCol_mem_cols _ _ _

theorem limpiar_qual_val {d : Dataset} {ro : Bool} :
    ∀ r ∈ (limpiar_datos d ro).rows, r "data_quality_score" = .fin 1 := by
  intro r hr
  obtain ⟨r5, _, hreq⟩ := mem_limpiar_rows hr
  rw [hreq, Function.update_same]

theorem limpiar_rooms_pos {d : Dataset}
    (hc : "AveRooms" ∈ (dropNullCols d).cols) :
    ∀ r ∈ (limpiar_datos d true).rows, valLt (.fin 0) (r "AveRooms") = true := by
  intro r hr
  obtain ⟨r5, hr5, hreq⟩ := mem_limpiar_rows hr
  rw [if_pos rfl] at hr5
  have hcmem : "AveRooms" ∈ (removeOutliersPrice (drop_duplicates (dropNullCols d))).cols := by
    rw [removeOutliersPrice_cols, drop_duplicates_cols]; exact hc
  have hr4 := filterPosCol_subset hr5
  rw [filterPosCol, if_pos hcmem] at hr4
  have hpos := (List.mem_filter.mp hr4).2
  rw [hreq, Function.update_noteq (by decide)]
  exact hpos

theorem limpiar_pop_pos {d : Dataset}
    (hc : "Population" ∈ (dropNullCols d).cols) :
    ∀ r ∈ (limpiar_datos d true).rows, valLt (.fin 0) (r "Population") = true := by
  intro r hr
  obtain ⟨r5, hr5, hreq⟩ := mem_limpiar_rows hr
  rw [if_pos rfl] at hr5
  have hcmem : "Population" ∈ (filterPosCol (removeOutliersPrice
      (drop_duplicates (dropNullCols d))) "AveRooms").cols := by
    rw [filterPosCol_cols, removeOutliersPrice_cols, drop_duplicates_cols]; exact hc
  rw [filterPosCol, if_pos hcmem] at hr5
  have hpos := (List.mem_filter.mp hr5).2
  rw [hreq, Function.update_noteq (by decide)]
  exact hpos

/-- C3 as amended: when the cleaner's output has no fully-null column, no
duplicate rows, and the IQR outlier rule recomputed on it flags no row,
re-running the cleaner returns it unchanged — in particular row count and
column set are unchanged.  (The original unconditional claim fails: a run
that removes every row leaves an output whose columns are all vacuously
null, so a second pass drops every data column; and the recomputed
quartiles can flag rows that were inliers under the first-pass bounds.) -/
theorem C3_second_pass_identity (d : Dataset)
    (hnonull : ∀ c ∈ (limpiar_datos d true).cols,
      ∃ r ∈ (limpiar_datos d true).rows, r c ≠ .na)
    (hnodup : ((limpiar_datos d true).rows.map
      (rowKey (limpiar_datos d true).cols)).Nodup)
    (hnoout : ∀ r ∈ (limpiar_datos d true).rows,
      detectar_outliers_iqr (limpiar_datos d true) "MedHouseVal" (3/2) r = false) :
    limpiar_datos (limpiar_datos d true) true = limpiar_datos d true := by
  have h1 : dropNullCols (limpiar_datos d true) = limpiar_datos d true :=
    dropNullCols_eq_self hnonull
  have h2 : drop_duplicates (limpiar_datos d true) = limpiar_datos d true :=
    drop_duplicates_eq_self hnodup
  have h3 : removeOutliersPrice (limpiar_datos d true) = limpiar_datos d true :=
    removeOutliersPrice_eq_self hnoout
  have h4 : filterPosCol (limpiar_datos d true) "AveRooms" = limpiar_datos d true := by
    by_cases hmem : "AveRooms" ∈ (limpiar_datos d true).cols
    · exact filterPosCol_eq_self (limpiar_rooms_pos (limpiar_cols_mem (by decide) hmem))
    · rw [filterPosCol, if_neg hmem]
  have h5 : filterPosCol (limpiar_datos d true) "Population" = limpiar_datos d true := by
    by_cases hmem : "Population" ∈ (limpiar_datos d true).cols
    · exact filterPosCol_eq_self (limpiar_pop_pos (limpiar_cols_mem (by decide) hmem))
    · rw [filterPosCol, if_neg hmem]
  have hunfold : limpiar_datos (limpiar_datos d true) true
      = setCol (filterPosCol (filterPosCol (removeOutliersPrice
          (drop_duplicates (dropNullCols (limpiar_datos d true)))) "AveRooms")
          "Population") "data_quality_score" (fun _ => .fin 1) := rfl
  rw [hunfold, h1, h2, h3, h4, h5]
  exact setCol_eq_self (limpiar_qual_mem d true)
    (fun r hr => (limpiar_qual_val r hr).symm)

/-- Witness for C3: for the concrete dataset `dRoomsPop` the cleaned
output satisfies the three side conditions and a second cleaning pass
returns it unchanged. -/
theorem C3_second_pass_identity_witness :
    (∀ c ∈ (limpiar_datos dRoomsPop true).cols,
      ∃ r ∈ (limpiar_datos dRoomsPop true).rows, r c ≠ .na) ∧
    ((limpiar_datos dRoomsPop true).rows.map
      (rowKey (limpiar_datos dRoomsPop true).cols)).Nodup ∧
    (∀ r ∈ (limpiar_datos dRoomsPop true).rows,
      detectar_outliers_iqr (limpiar_datos dRoomsPop true) "MedHouseVal" (3/2) r = false) ∧
    limpiar_datos (limpiar_datos dRoomsPop true) true = limpiar_datos dRoomsPop true := by
  have hd1 : limpiar_datos dRoomsPop true
      = { cols := ["AveRooms", "Population", "data_quality_score"],
          rows := [Function.update rRoomsPop "data_quality_score" (.fin 1)] } := by
    norm_num [limpiar_datos, dropNullCols, drop_duplicates, dropDupRowsAux, rowKey,
      removeOutliersPrice, filterPosCol, setCol, dRoomsPop, rRoomsPop, valLt, List.filter]
    simp +decide [rRoomsPop]
  have hval : ∀ c : String, (Function.update rRoomsPop "data_quality_score" (.fin 1)) c
      = if c = "data_quality_score" then .fin 1 else rRoomsPop c := by
    intro c
    by_cases hc : c = "data_quality_score"
    · subst hc; rw [Function.update_same, if_pos rfl]
    · rw [Function.update_noteq hc, if_neg hc]
  have hnonull : ∀ c ∈ (limpiar_datos dRoomsPop true).cols,
      ∃ r ∈ (limpiar_datos dRoomsPop true).rows, r c ≠ .na := by
    rw [hd1]
    intro c hc
    refine ⟨Function.update rRoomsPop "data_quality_score" (.fin 1), by simp, ?_⟩
    rcases (by simpa using hc : c = "AveRooms" ∨ c = "Population" ∨ c = "data_quality_score")
      with rfl | rfl | rfl <;> simp +decide [hval, rRoomsPop]
  have hnodup : ((limpiar_datos dRoomsPop true).rows.map
      (rowKey (limpiar_datos dRoomsPop true).cols)).Nodup := by
    rw [hd1]; simp
  have hnoout : ∀ r ∈ (limpiar_datos dRoomsPop true).rows,
      detectar_outliers_iqr (limpiar_datos dRoomsPop true) "MedHouseVal" (3/2) r = false := by
    rw [hd1]
    intro r hr
    rcases (by simpa using hr :
      r = Function.update rRoomsPop "data_quality_score" (.fin 1)) with rfl
    simp +decide [detectar_outliers_iqr, colVals, quantileVal, sortVals, insertVal,
      isNum, valAdd, valSub, valMul, valNeg, valLt, hval, rRoomsPop]
  exact ⟨hnonull, hnodup, hnoout,
    C3_second_pass_identity dRoomsPop hnonull hnodup hnoout⟩

/-- A concrete row holding only a population value. -/
def popRow (v : Val) : Row := fun c => if c = "Population" then v else .na

/-- A concrete one-row dataset with a non-positive population. -/
def dPopNeg : Dataset := { cols := ["Population"], rows := [popRow (.fin (-1))] }

/-- Counterexample to C3 as stated: cleaning `dPopNeg` removes its only
row (population `−1` fails range validation), so the first output has
columns `[Population, data_quality_score]` and no rows; the second pass
then drops every vacuously-null column, changing the column set. -/
theorem C3_counterexample :
    ¬ ((limpiar_datos (limpiar_datos dPopNeg true) true).cols
        = (limpiar_datos dPopNeg true).cols ∧
       (limpiar_datos (limpiar_datos dPopNeg true) true).rows.length
        = (limpiar_datos dPopNeg true).rows.length) := by
  intro hclaim
  have h1 : limpiar_datos dPopNeg true
      = { cols := ["Population", "data_quality_score"], rows := [] } := by
    norm_num [limpiar_datos, dropNullCols, drop_duplicates, dropDupRowsAux, rowKey,
      removeOutliersPrice, filterPosCol, setCol, dPopNeg, popRow, valLt, List.filter]
    simp +decide
  have h2 := (limpiar_empty_rows
    { cols := ["Population", "data_quality_score"], rows := [] } true rfl).1
  have hcols := hclaim.1
  rw [h1, h2] at hcols
  exact absurd hcols (by decide)

/-- C8: each stage fails with the missing-input error exactly when its
expected input snapshot is absent; with an input present, the cleaner
never raises it and the feature stage can only surface a (distinct)
value error from the quartile binning. -/
theorem C8_missing_input_iff :
    (∀ (rawInput : Option Dataset) (ro : Bool),
      (limpiar_datos_run rawInput ro = .error .missingInput ↔ rawInput = none)) ∧
    (∀ cleanInput : Option Dataset,
      (crear_features_run cleanInput = .error .missingInput ↔ cleanInput = none)) := by
  constructor
  · intro rawInput ro
    cases rawInput <;> simp [limpiar_datos_run]
  · intro cleanInput
    cases cleanInput with
    | none => simp [crear_features_run]
    | some d =>
        simp only [crear_features_run]
        constructor
        · intro h
          split at h <;> simp_all
        · intro h
          simp at h

/-- Witness for C8: both stages raise the missing-input error on an absent
input; the cleaner does not raise it on the concrete present input
`dPrice1`. -/
theorem C8_missing_input_iff_witness :
    limpiar_datos_run none true = .error .missingInput ∧
    crear_features_run none = .error .missingInput ∧
    limpiar_datos_run (some dPrice1) true ≠ .error .missingInput :=
  ⟨(C8_missing_input_iff.1 none true).mpr rfl,
   (C8_missing_input_iff.2 none).mpr rfl,
   fun h => by simpa using (C8_missing_input_iff.1 (some dPrice1) true).mp h⟩

/-! Frame lemmas for the feature-derivation steps. -/

theorem setCol_rows_length (d : Dataset) (c : String) (f : Row → Val) :
    (setCol d c f).rows.length = d.rows.length := by
  simp [setCol]

theorem setCol_colVals_ne {c' c : String} (h : c' ≠ c) (d : Dataset) (f : Row → Val) :
    colVals (setCol d c f) c' = colVals d c' := by
  simp only [setCol, colVals, List.map_map]
  apply List.map_congr_left
  intro r _
  simp [Function.comp, Function.update_noteq h]

theorem setCol_colVals_self (d : Dataset) (c : String) (f : Row → Val) :
    colVals (setCol d c f) c = d.rows.map f := by
  simp only [setCol, colVals, List.map_map]
  apply List.map_congr_left
  intro r _
  simp [Function.comp, Function.update_same]

theorem setCol_cols_of_not_mem {d : Dataset} {c : String} (f : Row → Val)
    (h : c ∉ d.cols) : (setCol d c f).cols = d.cols ++ [c] := by
  simp [setCol, h]

theorem setCol_cols_mono {d : Dataset} {c c' : String} {f : Row → Val}
    (h : c' ∈ d.cols) : c' ∈ (setCol d c f).cols := by
  rw [setCol]
  split
  · exact h
  · simp [h]

theorem setCol_cols_mem_iff {d : Dataset} {c c' : String} (f : Row → Val)
    (h : c' ≠ c) : c' ∈ (setCol d c f).cols ↔ c' ∈ d.cols := by
  rw [setCol]
  split
  · exact Iff.rfl
  · simp [h]

theorem featStep_rows_length (P : Dataset → Prop) [DecidablePred P] (n : String)
    (g : Dataset → Row → Val) (d : Dataset) :
    (featStep P n g d).rows.length = d.rows.length := by
  rw [featStep]
  split
  · exact setCol_rows_length _ _ _
  · rfl

theorem featStep_colVals_ne (P : Dataset → Prop) [DecidablePred P] {n : String}
    (g : Dataset → Row → Val) (d : Dataset) {c : String} (h : c ≠ n) :
    colVals (featStep P n g d) c = colVals d c := by
  rw [featStep]
  split
  · exact setCol_colVals_ne h _ _
  · rfl

theorem featStep_cols_mono (P : Dataset → Prop) [DecidablePred P] (n : String)
    (g : Dataset → Row → Val) (d : Dataset) {c : String} (h : c ∈ d.cols) :
    c ∈ (featStep P n g d).cols := by
  rw [featStep]
  split
  · exact setCol_cols_mono h
  · exact h

theorem featStep_cols_mem_iff (P : Dataset → Prop) [DecidablePred P] {n : String}
    (g : Dataset → Row → Val) (d : Dataset) {c : String} (h : c ≠ n) :
    c ∈ (featStep P n g d).cols ↔ c ∈ d.cols := by
  rw [featStep]
  split
  · exact setCol_cols_mem_iff _ h
  · exact Iff.rfl

theorem featStep_cols (P : Dataset → Prop) [DecidablePred P] {n : String}
    (g : Dataset → Row → Val) {d : Dataset} (h : n ∉ d.cols) :
    (featStep P n g d).cols = d.cols ++ (if P d then [n] else []) := by
  rw [featStep]
  split
  · rw [setCol_cols_of_not_mem _ h]
  · simp

theorem featStep_colVals_self (P : Dataset → Prop) [DecidablePred P] {n : String}
    (g : Dataset → Row → Val) {d : Dataset} (h : P d) :
    colVals (featStep P n g d) n = d.rows.map (g d) := by
  rw [featStep, if_pos h]
  exact setCol_colVals_self _ _ _

theorem fPriceCategory_ok {d d' : Dataset} (h : fPriceCategory d = .ok d') :
    ("MedHouseVal" ∈ d.cols ∧ d' = setCol d "price_category"
        (fun r => pdCut (qcutEdges (colVals d "MedHouseVal"))
          ["low", "medium", "high", "very_high"] true (r "MedHouseVal"))) ∨
    ("MedHouseVal" ∉ d.cols ∧ d' = d) := by
  rw [fPriceCategory] at h
  split at h
  · split at h
    · exact absurd h (by simp)
    · exact .inl ⟨by assumption, by injection h with h'; exact h'.symm⟩
  · exact .inr ⟨by assumption, by injection h with h'; exact h'.symm⟩

set_option maxHeartbeats 1600000 in
theorem crear_features_ok {d out : Dataset} (h : crear_features d = .ok out) :
    ∃ d5, fPriceCategory (fBedroomRatio (fIncomePerCapita (fPopDensity (fRooms d)))) = .ok d5 ∧
      out = fZscore (fInteraction (fLog "Population" (fLog "AveRooms" (fLog "HouseAge"
        (fLog "MedInc" (fAgeCategory (fIncomeCategory d5))))))) := by
  simp only [crear_features] at h
  split at h
  · exact absurd h (by simp)
  · rename_i d5 heq
    exact ⟨d5, heq, by injection h with h'; exact h'.symm⟩

theorem crear_features_ok_of_no_price {d : Dataset}
    (h : "MedHouseVal" ∉ (fBedroomRatio (fIncomePerCapita (fPopDensity (fRooms d)))).cols) :
    ∃ out, crear_features d = .ok out := by
  simp only [crear_features]
  rw [fPriceCategory, if_neg h]
  exact ⟨_, rfl⟩

theorem pre_price_colVals (d : Dataset) {c : String}
    (h1 : c ≠ "rooms_per_household") (h2 : c ≠ "population_density")
    (h3 : c ≠ "income_per_capita") (h4 : c ≠ "bedroom_ratio") :
    colVals (fBedroomRatio (fIncomePerCapita (fPopDensity (fRooms d)))) c
      = colVals d c := by
  rw [fBedroomRatio, fIncomePerCapita, fPopDensity, fRooms,
    featStep_colVals_ne _ _ _ h4, featStep_colVals_ne _ _ _ h3,
    featStep_colVals_ne _ _ _ h2, featStep_colVals_ne _ _ _ h1]

theorem pre_price_cols_mono (d : Dataset) {c : String} (h : c ∈ d.cols) :
    c ∈ (fBedroomRatio (fIncomePerCapita (fPopDensity (fRooms d)))).cols := by
  rw [fBedroomRatio, fIncomePerCapita, fPopDensity, fRooms]
  exact featStep_cols_mono _ _ _ _ (featStep_cols_mono _ _ _ _
    (featStep_cols_mono _ _ _ _ (featStep_cols_mono _ _ _ _ h)))

/-- C9: when the price column is present and its empirical quartile edges
(the `0, 1/4, 1/2, 3/4, 1` quantiles) are not all distinct — for example a
constant price column — the feature deriver fails with the `qcut`
bin-edges error rather than silently skipping the feature, and no output
dataset is produced. -/
theorem C9_qcut_duplicate_edges_error (d : Dataset)
    (hcol : "MedHouseVal" ∈ d.cols)
    (hdup : hasDupEdges (qcutEdges (colVals d "MedHouseVal")) = true) :
    crear_features d = .error "Bin edges must be unique" := by
  have hcv : colVals (fBedroomRatio (fIncomePerCapita (fPopDensity (fRooms d)))) "MedHouseVal"
      = colVals d "MedHouseVal" :=
    pre_price_colVals d (by decide) (by decide) (by decide) (by decide)
  have hmem := pre_price_cols_mono d hcol
  simp only [crear_features]
  rw [fPriceCategory, if_pos hmem, hcv, if_pos hdup]

/-- Witness for C9: the one-row dataset `dPrice1` has a constant price
column, its quartile edges all coincide, and the feature deriver fails
with the bin-edges error. -/
theorem C9_qcut_duplicate_edges_error_witness :
    ("MedHouseVal" ∈ dPrice1.cols) ∧
    hasDupEdges (qcutEdges (colVals dPrice1 "MedHouseVal")) = true ∧
    crear_features dPrice1 = .error "Bin edges must be unique" := by
  have hdup : hasDupEdges (qcutEdges (colVals dPrice1 "MedHouseVal")) = true := by
    norm_num [hasDupEdges, qcutEdges, colVals, dPrice1, priceRow, quantileVal,
      sortVals, insertVal, isNum]
  exact ⟨by decide, hdup, C9_qcut_duplicate_edges_error dPrice1 (by decide) hdup⟩

/-! Lemmas about the rooms-per-household guard: replacing the infinities
by `NaN` and filling with the skip-`NaN` median is the same as keeping the
finite quotients and sending every invalid quotient to the median of the
finite quotients alone. -/

theorem fillna_infToNa_div (med a b : Val) :
    fillna med (infToNa (valDiv a b))
      = if isFin (valDiv a b) = true then valDiv a b else med := by
  rcases a with _ | _ | _ | qa | sa <;> rcases b with _ | _ | _ | qb | sb <;>
    simp [valDiv, infToNa, fillna, isFin] <;> split_ifs <;>
    simp_all [infToNa, fillna, isFin]

theorem filter_isNum_map_infToNa (xs : List Val) :
    (xs.map infToNa).filter isNum = xs.filter (fun v => isFin v) := by
  induction xs with
  | nil => rfl
  | cons x t ih =>
      cases x <;> simp [infToNa, isNum, isFin, List.filter_cons, ih]

theorem filter_isNum_filter_isFin (xs : List Val) :
    (xs.filter (fun v => isFin v)).filter isNum = xs.filter (fun v => isFin v) := by
  rw [List.filter_filter]
  apply List.filter_congr
  intro v _
  cases v <;> simp [isNum, isFin]

theorem medianVal_map_infToNa (xs : List Val) :
    medianVal (xs.map infToNa) = medianVal (xs.filter (fun v => isFin v)) := by
  rw [medianVal, medianVal, quantileVal, quantileVal, filter_isNum_map_infToNa,
    filter_isNum_filter_isFin]

theorem map_comp_vals (rs : List Row) (f : Row → Val) (g : Val → Val) :
    rs.map (fun r => g (f r)) = (rs.map f).map g := by
  rw [List.map_map]; rfl

theorem logName_MedInc : ("MedInc" ++ "_log" : String) = "MedInc_log" := by decide

theorem logName_HouseAge : ("HouseAge" ++ "_log" : String) = "HouseAge_log" := by decide

theorem logName_AveRooms : ("AveRooms" ++ "_log" : String) = "AveRooms_log" := by decide

theorem logName_Population : ("Population" ++ "_log" : String) = "Population_log" := by decide

theorem post_price_colVals (d5 : Dataset) {c : String}
    (h1 : c ≠ "income_category") (h2 : c ≠ "house_age_category")
    (h3 : c ≠ "MedInc_log") (h4 : c ≠ "HouseAge_log") (h5 : c ≠ "AveRooms_log")
    (h6 : c ≠ "Population_log") (h7 : c ≠ "income_age_interaction")
    (h8 : c ≠ "income_zscore") :
    colVals (fZscore (fInteraction (fLog "Population" (fLog "AveRooms" (fLog "HouseAge"
      (fLog "MedInc" (fAgeCategory (fIncomeCategory d5)))))))) c = colVals d5 c := by
  rw [fZscore, fInteraction, fLog, fLog, fLog, fLog, fAgeCategory, fIncomeCategory,
    logName_MedInc, logName_HouseAge, logName_AveRooms, logName_Population,
    featStep_colVals_ne _ _ _ h8, featStep_colVals_ne _ _ _ h7,
    featStep_colVals_ne _ _ _ h6, featStep_colVals_ne _ _ _ h5,
    featStep_colVals_ne _ _ _ h4, featStep_colVals_ne _ _ _ h3,
    featStep_colVals_ne _ _ _ h2, featStep_colVals_ne _ _ _ h1]

/-- C5: the deriver computes rooms divided by bedrooms per row; a row
whose quotient is not a finite number (an infinity from division by zero,
or an undefined value) receives instead the median of the
rooms-per-household column computed over the valid (finite) quotients
only. -/
theorem C5_rooms_per_household_fill (d out : Dataset)
    (h1 : "AveRooms" ∈ d.cols) (h2 : "AveBedrms" ∈ d.cols)
    (hok : crear_features d = .ok out) :
    colVals out "rooms_per_household" = d.rows.map (fun r =>
      if isFin (valDiv (r "AveRooms") (r "AveBedrms")) = true
      then valDiv (r "AveRooms") (r "AveBedrms")
      else medianVal ((d.rows.map (fun t => valDiv (t "AveRooms") (t "AveBedrms"))).filter
        (fun v => isFin v))) := by
  obtain ⟨d5, hpc, hout⟩ := crear_features_ok hok
  subst hout
  rw [post_price_colVals d5 (by decide) (by decide) (by decide) (by decide) (by decide)
    (by decide) (by decide) (by decide)]
  have hd5 : colVals d5 "rooms_per_household"
      = colVals (fBedroomRatio (fIncomePerCapita (fPopDensity (fRooms d))))
          "rooms_per_household" := by
    rcases fPriceCategory_ok hpc with ⟨_, rfl⟩ | ⟨_, rfl⟩
    · exact setCol_colVals_ne (by decide) _ _
    · rfl
  rw [hd5, fBedroomRatio, fIncomePerCapita, fPopDensity,
    featStep_colVals_ne _ _ _ (by decide), featStep_colVals_ne _ _ _ (by decide),
    featStep_colVals_ne _ _ _ (by decide), fRooms,
    featStep_colVals_self _ _ ⟨h1, h2⟩]
  apply List.map_congr_left
  intro r _
  rw [fillna_infToNa_div]
  congr 1
  rw [map_comp_vals d.rows (fun t => valDiv (t "AveRooms") (t "AveBedrms")) infToNa,
    medianVal_map_infToNa]

/-- A concrete row holding a rooms and a bedrooms value. -/
def rbRow (a b : Val) : Row :=
  fun c => if c = "AveRooms" then a else if c = "AveBedrms" then b else .na

/-- A concrete dataset with quotients `4/2 = 2` and the invalid `1/0`. -/
def dRoomsBed : Dataset :=
  { cols := ["AveRooms", "AveBedrms"],
    rows := [rbRow (.fin 4) (.fin 2), rbRow (.fin 1) (.fin 0)] }

/-- Witness for C5: on `dRoomsBed` the valid quotient `2` is kept and the
division-by-zero row receives the median of the single valid quotient. -/
theorem C5_rooms_per_household_fill_witness :
    ("AveRooms" ∈ dRoomsBed.cols ∧ "AveBedrms" ∈ dRoomsBed.cols) ∧
    ∃ out, crear_features dRoomsBed = .ok out ∧
      colVals out "rooms_per_household" = [.fin 2, .fin 2] := by
  have hnop : "MedHouseVal"
      ∉ (fBedroomRatio (fIncomePerCapita (fPopDensity (fRooms dRoomsBed)))).cols := by
    simp +decide [fRooms, fPopDensity, fIncomePerCapita, fBedroomRatio, featStep,
      setCol, dRoomsBed]
  obtain ⟨out, hok⟩ := crear_features_ok_of_no_price hnop
  refine ⟨⟨by decide, by decide⟩, out, hok, ?_⟩
  rw [C5_rooms_per_household_fill dRoomsBed out (by decide) (by decide) hok]
  simp +decide [dRoomsBed, rbRow]
  norm_num [valDiv, isFin, medianVal, quantileVal, sortVals, insertVal, isNum,
    List.filter]

/-- Observable of the feature stage: the values of one column of the
output dataset, empty on failure. -/
def crearColVals (d : Dataset) (c : String) : List Val :=
  match crear_features d with
  | .ok out => colVals out c
  | .error _ => []

/-- Observable of the feature stage: the output column schema, empty on
failure. -/
def crearCols (d : Dataset) : List String :=
  match crear_features d with
  | .ok out => out.cols
  | .error _ => []

/-- The `pd.cut` fixed-edge binning of the income column, characterized by
inequalities: bins are left-open and right-closed, `(0,3]`, `(3,5]`,
`(5,7]`, `(7,∞)`; values at or below `0`, missing values and labels get no
bin. -/
theorem pdCut_income_eq (v : Val) :
    pdCut [.fin 0, .fin 3, .fin 5, .fin 7, .pinf]
      ["low", "medium", "high", "very_high"] false v
    = if valLt (.fin 0) v && valLe v (.fin 3) then .str "low"
      else if valLt (.fin 3) v && valLe v (.fin 5) then .str "medium"
      else if valLt (.fin 5) v && valLe v (.fin 7) then .str "high"
      else if valLt (.fin 7) v then .str "very_high"
      else .na := by
  rcases v with _ | _ | _ | q | s <;>
    simp [pdCut, binLabel, valLt, valLe]

theorem medInc_mem_d5 {d d5 : Dataset} (hc : "MedInc" ∈ d.cols)
    (hpc : fPriceCategory (fBedroomRatio (fIncomePerCapita (fPopDensity (fRooms d))))
      = .ok d5) : "MedInc" ∈ d5.cols := by
  rcases fPriceCategory_ok hpc with ⟨_, rfl⟩ | ⟨_, rfl⟩
  · exact setCol_cols_mono (pre_price_cols_mono d hc)
  · exact pre_price_cols_mono d hc

theorem medInc_colVals_d5 {d d5 : Dataset}
    (hpc : fPriceCategory (fBedroomRatio (fIncomePerCapita (fPopDensity (fRooms d))))
      = .ok d5) : colVals d5 "MedInc" = colVals d "MedInc" := by
  rcases fPriceCategory_ok hpc with ⟨_, rfl⟩ | ⟨_, rfl⟩
  · rw [setCol_colVals_ne (by decide)]
    exact pre_price_colVals d (by decide) (by decide) (by decide) (by decide)
  · exact pre_price_colVals d (by decide) (by decide) (by decide) (by decide)

/-- C4 as amended: the income categories are assigned by the fixed bins
`(0,3]`, `(3,5]`, `(5,7]`, `(7,∞)` — left-open and right-closed, as
`pd.cut` defaults — so an income of exactly `3` is labeled `low`, exactly
`5` is labeled `medium`, exactly `7` is labeled `high`, and exactly `0`
falls in no bin and gets a missing label.  (The original claim asserted
left-inclusive/right-exclusive bins `[0,3)`, `[3,5)`, `[5,7)`, `[7,∞)`,
under which `3` would be `medium`, `5` `high`, `7` `very_high` and `0`
`low`.) -/
theorem C4_income_category_bins (d out : Dataset)
    (hc : "MedInc" ∈ d.cols) (hok : crear_features d = .ok out) :
    colVals out "income_category" = d.rows.map (fun r =>
      if valLt (.fin 0) (r "MedInc") && valLe (r "MedInc") (.fin 3) then .str "low"
      else if valLt (.fin 3) (r "MedInc") && valLe (r "MedInc") (.fin 5) then .str "medium"
      else if valLt (.fin 5) (r "MedInc") && valLe (r "MedInc") (.fin 7) then .str "high"
      else if valLt (.fin 7) (r "MedInc") then .str "very_high"
      else .na) := by
  obtain ⟨d5, hpc, hout⟩ := crear_features_ok hok
  subst hout
  have hpres : colVals (fZscore (fInteraction (fLog "Population" (fLog "AveRooms"
      (fLog "HouseAge" (fLog "MedInc" (fAgeCategory (fIncomeCategory d5))))))))
      "income_category" = colVals (fIncomeCategory d5) "income_category" := by
    rw [fZscore, fInteraction, fLog, fLog, fLog, fLog, fAgeCategory,
      logName_MedInc, logName_HouseAge, logName_AveRooms, logName_Population,
      featStep_colVals_ne _ _ _ (by decide), featStep_colVals_ne _ _ _ (by decide),
      featStep_colVals_ne _ _ _ (by decide), featStep_colVals_ne _ _ _ (by decide),
      featStep_colVals_ne _ _ _ (by decide), featStep_colVals_ne _ _ _ (by decide),
      featStep_colVals_ne _ _ _ (by decide)]
  rw [hpres, fIncomeCategory, featStep_colVals_self _ _ (medInc_mem_d5 hc hpc),
    map_comp_vals d5.rows (fun r => r "MedInc")]
  rw [show (d5.rows.map (fun r => r "MedInc")) = colVals d5 "MedInc" from rfl,
    medInc_colVals_d5 hpc,
    show colVals d "MedInc" = d.rows.map (fun r => r "MedInc") from rfl,
    ← map_comp_vals d.rows (fun r => r "MedInc")]
  apply List.map_congr_left
  intro r _
  exact pdCut_income_eq (r "MedInc")

/-- A concrete row holding only an income value. -/
def incRow (v : Val) : Row := fun c => if c = "MedInc" then v else .na

/-- A concrete one-row dataset with income exactly `3`. -/
def dInc3 : Dataset := { cols := ["MedInc"], rows := [incRow (.fin 3)] }

/-- Witness for C4: on `dInc3` the feature deriver succeeds and labels the
boundary income `3` as `low`. -/
theorem C4_income_category_bins_witness :
    ("MedInc" ∈ dInc3.cols) ∧
    ∃ out, crear_features dInc3 = .ok out ∧
      colVals out "income_category" = [.str "low"] := by
  have hnop : "MedHouseVal"
      ∉ (fBedroomRatio (fIncomePerCapita (fPopDensity (fRooms dInc3)))).cols := by
    simp +decide [fRooms, fPopDensity, fIncomePerCapita, fBedroomRatio, featStep,
      setCol, dInc3]
  obtain ⟨out, hok⟩ := crear_features_ok_of_no_price hnop
  refine ⟨by decide, out, hok, ?_⟩
  rw [C4_income_category_bins dInc3 out (by decide) hok]
  simp +decide [dInc3, incRow]

/-- Counterexample to C4 as stated: an income of exactly `3` is labeled
`low`, not `medium`, because the `pd.cut` bins are right-closed. -/
theorem C4_counterexample :
    ¬ (∀ out, crear_features dInc3 = .ok out →
        colVals out "income_category" = [.str "medium"]) := by
  intro hclaim
  have heval : crearColVals dInc3 "income_category" = [.str "low"] := by
    simp +decide [crearColVals, crear_features, fRooms, fPopDensity, fIncomePerCapita,
      fBedroomRatio, fPriceCategory, fIncomeCategory, fAgeCategory, fLog, fInteraction,
      fZscore, featStep, setCol, colVals, dInc3, incRow, pdCut, binLabel, valLt, valLe,
      Function.update]
  rw [crearColVals] at heval
  split at heval
  · rename_i out heq
    rw [hclaim out heq] at heval
    exact absurd heval (by decide)
  · exact absurd heval (by decide)

/-! Infrastructure for the finiteness analysis of the derived columns: a
per-row invariant on the source columns, preserved by every feature step
because no step writes a source column. -/

/-- The source columns of a row are finite, with positive rooms and
occupancy, nonzero bedrooms, and nonnegative population, income and house
age. -/
def SrcOk (r : Row) : Prop :=
  (∃ q : ℚ, r "AveRooms" = .fin q ∧ 0 < q) ∧
  (∃ q : ℚ, r "AveBedrms" = .fin q ∧ q ≠ 0) ∧
  (∃ q : ℚ, r "Population" = .fin q ∧ 0 ≤ q) ∧
  (∃ q : ℚ, r "AveOccup" = .fin q ∧ 0 < q) ∧
  (∃ q : ℚ, r "MedInc" = .fin q ∧ 0 ≤ q) ∧
  (∃ q : ℚ, r "HouseAge" = .fin q ∧ 0 ≤ q)

theorem srcOk_update {r : Row} {n : String} {v : Val}
    (hn1 : "AveRooms" ≠ n) (hn2 : "AveBedrms" ≠ n) (hn3 : "Population" ≠ n)
    (hn4 : "AveOccup" ≠ n) (hn5 : "MedInc" ≠ n) (hn6 : "HouseAge" ≠ n)
    (h : SrcOk r) : SrcOk (Function.update r n v) := by
  obtain ⟨h1, h2, h3, h4, h5, h6⟩ := h
  refine ⟨?_, ?_, ?_, ?_, ?_, ?_⟩ <;>
    rw [Function.update_noteq (by assumption)] <;> assumption

theorem featStep_srcOk (P : Dataset → Prop) [DecidablePred P] {n : String}
    (g : Dataset → Row → Val) {dk : Dataset}
    (hn1 : "AveRooms" ≠ n) (hn2 : "AveBedrms" ≠ n) (hn3 : "Population" ≠ n)
    (hn4 : "AveOccup" ≠ n) (hn5 : "MedInc" ≠ n) (hn6 : "HouseAge" ≠ n)
    (h : ∀ r ∈ dk.rows, SrcOk r) : ∀ r ∈ (featStep P n g dk).rows, SrcOk r := by
  rw [featStep]
  split
  · intro r hr
    obtain ⟨r', hr', rfl⟩ := mem_setCol hr
    exact srcOk_update hn1 hn2 hn3 hn4 hn5 hn6 (h r' hr')
  · exact h

theorem fPriceCategory_srcOk {d d5 : Dataset}
    (hpc : fPriceCategory d = .ok d5)
    (h : ∀ r ∈ d.rows, SrcOk r) : ∀ r ∈ d5.rows, SrcOk r := by
  rcases fPriceCategory_ok hpc with ⟨_, rfl⟩ | ⟨_, rfl⟩
  · intro r hr
    obtain ⟨r', hr', rfl⟩ := mem_setCol hr
    exact srcOk_update (by decide) (by decide) (by decide) (by decide) (by decide)
      (by decide) (h r' hr')
  · exact h

theorem foldl_valAdd_fin :
    ∀ (xs : List Val), (∀ v ∈ xs, isFin v = true) →
      ∀ q0 : ℚ, ∃ q : ℚ, xs.foldl valAdd (.fin q0) = .fin q := by
  intro xs
  induction xs with
  | nil => exact fun _ q0 => ⟨q0, rfl⟩
  | cons x t ih =>
      intro hfin q0
      obtain ⟨qx, hx⟩ := isFin_iff.mp (hfin x (by simp))
      rw [List.foldl_cons, hx, valAdd_fin]
      exact ih (fun v hv => hfin v (by simp [hv])) _

theorem meanVal_fin {xs : List Val} (hne : xs ≠ [])
    (hfin : ∀ v ∈ xs, isFin v = true) : ∃ q : ℚ, meanVal xs = .fin q := by
  have hfilter : xs.filter isNum = xs :=
    List.filter_eq_self.mpr (fun v hv => isNum_of_isFin (hfin v hv))
  have hempty : xs.isEmpty = false := by
    cases hxs : xs with
    | nil => exact absurd hxs hne
    | cons a l => rfl
  rw [meanVal, hfilter]
  simp only [hempty, Bool.false_eq_true, if_false]
  obtain ⟨s, hs⟩ := foldl_valAdd_fin xs hfin 0
  rw [hs, valDiv_fin_of_ne]
  · exact ⟨_, rfl⟩
  · have : xs.length ≠ 0 := fun h => hne (List.length_eq_zero.mp h)
    exact_mod_cast this

theorem fPriceCategory_colVals_ne {d d5 : Dataset} {c : String}
    (hc : c ≠ "price_category") (hpc : fPriceCategory d = .ok d5) :
    colVals d5 c = colVals d c := by
  rcases fPriceCategory_ok hpc with ⟨_, rfl⟩ | ⟨_, rfl⟩
  · exact setCol_colVals_ne hc _ _
  · rfl

theorem fPriceCategory_cols_mono {d d5 : Dataset} {c : String}
    (hpc : fPriceCategory d = .ok d5) (hc : c ∈ d.cols) : c ∈ d5.cols := by
  rcases fPriceCategory_ok hpc with ⟨_, rfl⟩ | ⟨_, rfl⟩
  · exact setCol_cols_mono hc
  · exact hc

theorem fPriceCategory_rows_length {d d5 : Dataset}
    (hpc : fPriceCategory d = .ok d5) : d5.rows.length = d.rows.length := by
  rcases fPriceCategory_ok hpc with ⟨_, rfl⟩ | ⟨_, rfl⟩
  · exact setCol_rows_length _ _ _
  · rfl

/-! Extraction lemmas: the values of each derived column in the final
output, expressed as the map the corresponding step computes over the
dataset as it stood at that step. -/

theorem crear_rooms_map {d d5 : Dataset}
    (h1 : "AveRooms" ∈ d.cols) (h2 : "AveBedrms" ∈ d.cols)
    (hpc : fPriceCategory (fBedroomRatio (fIncomePerCapita (fPopDensity (fRooms d))))
      = .ok d5) :
    colVals (fZscore (fInteraction (fLog "Population" (fLog "AveRooms" (fLog "HouseAge"
        (fLog "MedInc" (fAgeCategory (fIncomeCategory d5)))))))) "rooms_per_household"
      = d.rows.map (fun r =>
        fillna (medianVal (d.rows.map
            (fun t => infToNa (valDiv (t "AveRooms") (t "AveBedrms")))))
          (infToNa (valDiv (r "AveRooms") (r "AveBedrms")))) := by
  rw [post_price_colVals d5 (by decide) (by decide) (by decide) (by decide) (by decide)
      (by decide) (by decide) (by decide),
    fPriceCategory_colVals_ne (by decide) hpc, fBedroomRatio,
    featStep_colVals_ne _ _ _ (by decide), fIncomePerCapita,
    featStep_colVals_ne _ _ _ (by decide), fPopDensity,
    featStep_colVals_ne _ _ _ (by decide), fRooms,
    featStep_colVals_self _ _ ⟨h1, h2⟩]

theorem crear_popdens_map {d d5 : Dataset}
    (h1 : "Population" ∈ d.cols) (h2 : "AveOccup" ∈ d.cols)
    (hpc : fPriceCategory (fBedroomRatio (fIncomePerCapita (fPopDensity (fRooms d))))
      = .ok d5) :
    colVals (fZscore (fInteraction (fLog "Population" (fLog "AveRooms" (fLog "HouseAge"
        (fLog "MedInc" (fAgeCategory (fIncomeCategory d5)))))))) "population_density"
      = (fRooms d).rows.map
          (fun r => valDiv (r "Population") (valAdd (r "AveOccup") (.fin 1))) := by
  rw [post_price_colVals d5 (by decide) (by decide) (by decide) (by decide) (by decide)
      (by decide) (by decide) (by decide),
    fPriceCategory_colVals_ne (by decide) hpc, fBedroomRatio,
    featStep_colVals_ne _ _ _ (by decide), fIncomePerCapita,
    featStep_colVals_ne _ _ _ (by decide), fPopDensity,
    featStep_colVals_self _ _
      ⟨by rw [fRooms]; exact featStep_cols_mono _ _ _ _ h1,
       by rw [fRooms]; exact featStep_cols_mono _ _ _ _ h2⟩]

theorem crear_ipc_map {d d5 : Dataset}
    (h1 : "MedInc" ∈ d.cols) (h2 : "AveOccup" ∈ d.cols)
    (hpc : fPriceCategory (fBedroomRatio (fIncomePerCapita (fPopDensity (fRooms d))))
      = .ok d5) :
    colVals (fZscore (fInteraction (fLog "Population" (fLog "AveRooms" (fLog "HouseAge"
        (fLog "MedInc" (fAgeCategory (fIncomeCategory d5)))))))) "income_per_capita"
      = (fPopDensity (fRooms d)).rows.map
          (fun r => valDiv (r "MedInc") (r "AveOccup")) := by
  rw [post_price_colVals d5 (by decide) (by decide) (by decide) (by decide) (by decide)
      (by decide) (by decide) (by decide),
    fPriceCategory_colVals_ne (by decide) hpc, fBedroomRatio,
    featStep_colVals_ne _ _ _ (by decide), fIncomePerCapita,
    featStep_colVals_self _ _
      ⟨by rw [fPopDensity, fRooms]
          exact featStep_cols_mono _ _ _ _ (featStep_cols_mono _ _ _ _ h1),
       by rw [fPopDensity, fRooms]
          exact featStep_cols_mono _ _ _ _ (featStep_cols_mono _ _ _ _ h2)⟩]

theorem crear_bedratio_map {d d5 : Dataset}
    (h1 : "AveBedrms" ∈ d.cols) (h2 : "AveRooms" ∈ d.cols)
    (hpc : fPriceCategory (fBedroomRatio (fIncomePerCapita (fPopDensity (fRooms d))))
      = .ok d5) :
    colVals (fZscore (fInteraction (fLog "Population" (fLog "AveRooms" (fLog "HouseAge"
        (fLog "MedInc" (fAgeCategory (fIncomeCategory d5)))))))) "bedroom_ratio"
      = (fIncomePerCapita (fPopDensity (fRooms d))).rows.map
          (fun r => valDiv (r "AveBedrms") (valAdd (r "AveRooms") (.fin (1/100)))) := by
  rw [post_price_colVals d5 (by decide) (by decide) (by decide) (by decide) (by decide)
      (by decide) (by decide) (by decide),
    fPriceCategory_colVals_ne (by decide) hpc, fBedroomRatio,
    featStep_colVals_self _ _
      ⟨by rw [fIncomePerCapita, fPopDensity, fRooms]
          exact featStep_cols_mono _ _ _ _ (featStep_cols_mono _ _ _ _
            (featStep_cols_mono _ _ _ _ h1)),
       by rw [fIncomePerCapita, fPopDensity, fRooms]
          exact featStep_cols_mono _ _ _ _ (featStep_cols_mono _ _ _ _
            (featStep_cols_mono _ _ _ _ h2))⟩]

theorem post_cols_mono_S7 {d d5 : Dataset} {c : String}
    (hpc : fPriceCategory (fBedroomRatio (fIncomePerCapita (fPopDensity (fRooms d))))
      = .ok d5) (hc : c ∈ d.cols) :
    c ∈ (fAgeCategory (fIncomeCategory d5)).cols := by
  rw [fAgeCategory, fIncomeCategory]
  exact featStep_cols_mono _ _ _ _ (featStep_cols_mono _ _ _ _
    (fPriceCategory_cols_mono hpc (pre_price_cols_mono d hc)))

theorem crear_logMedInc_map {d d5 : Dataset} (hc : "MedInc" ∈ d.cols)
    (hpc : fPriceCategory (fBedroomRatio (fIncomePerCapita (fPopDensity (fRooms d))))
      = .ok d5) :
    colVals (fZscore (fInteraction (fLog "Population" (fLog "AveRooms" (fLog "HouseAge"
        (fLog "MedInc" (fAgeCategory (fIncomeCategory d5)))))))) "MedInc_log"
      = (fAgeCategory (fIncomeCategory d5)).rows.map
          (fun r => log1pVal (r "MedInc")) := by
  rw [fZscore, fInteraction, fLog, fLog, fLog, fLog, logName_MedInc, logName_HouseAge, logName_AveRooms,
    logName_Population,
    featStep_colVals_ne _ _ _ (by decide), featStep_colVals_ne _ _ _ (by decide),
    featStep_colVals_ne _ _ _ (by decide), featStep_colVals_ne _ _ _ (by decide),
    featStep_colVals_ne _ _ _ (by decide),
    featStep_colVals_self _ _ (post_cols_mono_S7 hpc hc)]

theorem crear_logHouseAge_map {d d5 : Dataset} (hc : "HouseAge" ∈ d.cols)
    (hpc : fPriceCategory (fBedroomRatio (fIncomePerCapita (fPopDensity (fRooms d))))
      = .ok d5) :
    colVals (fZscore (fInteraction (fLog "Population" (fLog "AveRooms" (fLog "HouseAge"
        (fLog "MedInc" (fAgeCategory (fIncomeCategory d5)))))))) "HouseAge_log"
      = (fLog "MedInc" (fAgeCategory (fIncomeCategory d5))).rows.map
          (fun r => log1pVal (r "HouseAge")) := by
  rw [fZscore, fInteraction, fLog, fLog, fLog, fLog, logName_MedInc, logName_HouseAge, logName_AveRooms,
    logName_Population,
    featStep_colVals_ne _ _ _ (by decide), featStep_colVals_ne _ _ _ (by decide),
    featStep_colVals_ne _ _ _ (by decide), featStep_colVals_ne _ _ _ (by decide),
    featStep_colVals_self _ _
      (featStep_cols_mono _ _ _ _ (post_cols_mono_S7 hpc hc))]

theorem crear_logAveRooms_map {d d5 : Dataset} (hc : "AveRooms" ∈ d.cols)
    (hpc : fPriceCategory (fBedroomRatio (fIncomePerCapita (fPopDensity (fRooms d))))
      = .ok d5) :
    colVals (fZscore (fInteraction (fLog "Population" (fLog "AveRooms" (fLog "HouseAge"
        (fLog "MedInc" (fAgeCategory (fIncomeCategory d5)))))))) "AveRooms_log"
      = (fLog "HouseAge" (fLog "MedInc" (fAgeCategory (fIncomeCategory d5)))).rows.map
          (fun r => log1pVal (r "AveRooms")) := by
  rw [fZscore, fInteraction, fLog, fLog, fLog, fLog, logName_MedInc, logName_HouseAge, logName_AveRooms,
    logName_Population,
    featStep_colVals_ne _ _ _ (by decide), featStep_colVals_ne _ _ _ (by decide),
    featStep_colVals_ne _ _ _ (by decide),
    featStep_colVals_self _ _
      (featStep_cols_mono _ _ _ _ (featStep_cols_mono _ _ _ _
        (post_cols_mono_S7 hpc hc)))]

theorem crear_logPopulation_map {d d5 : Dataset} (hc : "Population" ∈ d.cols)
    (hpc : fPriceCategory (fBedroomRatio (fIncomePerCapita (fPopDensity (fRooms d))))
      = .ok d5) :
    colVals (fZscore (fInteraction (fLog "Population" (fLog "AveRooms" (fLog "HouseAge"
        (fLog "MedInc" (fAgeCategory (fIncomeCategory d5)))))))) "Population_log"
      = (fLog "AveRooms" (fLog "HouseAge" (fLog "MedInc"
          (fAgeCategory (fIncomeCategory d5))))).rows.map
          (fun r => log1pVal (r "Population")) := by
  rw [fZscore, fInteraction, fLog, fLog, fLog, fLog, logName_MedInc, logName_HouseAge, logName_AveRooms,
    logName_Population,
    featStep_colVals_ne _ _ _ (by decide), featStep_colVals_ne _ _ _ (by decide),
    featStep_colVals_self _ _
      (featStep_cols_mono _ _ _ _ (featStep_cols_mono _ _ _ _
        (featStep_cols_mono _ _ _ _ (post_cols_mono_S7 hpc hc))))]

theorem crear_interaction_map {d d5 : Dataset}
    (h1 : "MedInc" ∈ d.cols) (h2 : "HouseAge" ∈ d.cols)
    (hpc : fPriceCategory (fBedroomRatio (fIncomePerCapita (fPopDensity (fRooms d))))
      = .ok d5) :
    colVals (fZscore (fInteraction (fLog "Population" (fLog "AveRooms" (fLog "HouseAge"
        (fLog "MedInc" (fAgeCategory (fIncomeCategory d5)))))))) "income_age_interaction"
      = (fLog "Population" (fLog "AveRooms" (fLog "HouseAge" (fLog "MedInc"
          (fAgeCategory (fIncomeCategory d5)))))).rows.map
          (fun r => valMul (r "MedInc") (r "HouseAge")) := by
  rw [fZscore, fInteraction, fLog, fLog, fLog, fLog, logName_MedInc, logName_HouseAge, logName_AveRooms,
    logName_Population,
    featStep_colVals_ne _ _ _ (by decide),
    featStep_colVals_self _ _
      ⟨featStep_cols_mono _ _ _ _ (featStep_cols_mono _ _ _ _ (featStep_cols_mono _ _ _ _
        (featStep_cols_mono _ _ _ _ (post_cols_mono_S7 hpc h1)))),
       featStep_cols_mono _ _ _ _ (featStep_cols_mono _ _ _ _ (featStep_cols_mono _ _ _ _
        (featStep_cols_mono _ _ _ _ (post_cols_mono_S7 hpc h2))))⟩]

theorem stage12_colVals_medInc {d d5 : Dataset}
    (hpc : fPriceCategory (fBedroomRatio (fIncomePerCapita (fPopDensity (fRooms d))))
      = .ok d5) :
    colVals (fInteraction (fLog "Population" (fLog "AveRooms" (fLog "HouseAge"
        (fLog "MedInc" (fAgeCategory (fIncomeCategory d5))))))) "MedInc"
      = colVals d "MedInc" := by
  rw [fInteraction, fLog, fLog, fLog, fLog, logName_MedInc, logName_HouseAge, logName_AveRooms,
    logName_Population, fAgeCategory, fIncomeCategory,
    featStep_colVals_ne _ _ _ (by decide), featStep_colVals_ne _ _ _ (by decide),
    featStep_colVals_ne _ _ _ (by decide), featStep_colVals_ne _ _ _ (by decide),
    featStep_colVals_ne _ _ _ (by decide), featStep_colVals_ne _ _ _ (by decide),
    featStep_colVals_ne _ _ _ (by decide),
    fPriceCategory_colVals_ne (by decide) hpc]
  exact pre_price_colVals d (by decide) (by decide) (by decide) (by decide)

theorem crear_zscore_map {d d5 : Dataset} (hc : "MedInc" ∈ d.cols)
    (hpc : fPriceCategory (fBedroomRatio (fIncomePerCapita (fPopDensity (fRooms d))))
      = .ok d5) :
    colVals (fZscore (fInteraction (fLog "Population" (fLog "AveRooms" (fLog "HouseAge"
        (fLog "MedInc" (fAgeCategory (fIncomeCategory d5)))))))) "income_zscore"
      = (fInteraction (fLog "Population" (fLog "AveRooms" (fLog "HouseAge"
          (fLog "MedInc" (fAgeCategory (fIncomeCategory d5))))))).rows.map
          (fun r => valDiv (valSub (r "MedInc") (meanVal (colVals d "MedInc")))
            (stdVal (colVals d "MedInc"))) := by
  have hmem : "MedInc" ∈ (fInteraction (fLog "Population" (fLog "AveRooms" (fLog "HouseAge"
      (fLog "MedInc" (fAgeCategory (fIncomeCategory d5))))))).cols := by
    rw [fInteraction, fLog, fLog, fLog, fLog]
    exact featStep_cols_mono _ _ _ _ (featStep_cols_mono _ _ _ _ (featStep_cols_mono _ _ _ _
      (featStep_cols_mono _ _ _ _ (featStep_cols_mono _ _ _ _
        (post_cols_mono_S7 hpc hc)))))
  rw [fZscore, featStep_colVals_self _ _ hmem]
  simp only [stage12_colVals_medInc hpc]

theorem stage12_rows_length {d d5 : Dataset}
    (hpc : fPriceCategory (fBedroomRatio (fIncomePerCapita (fPopDensity (fRooms d))))
      = .ok d5) :
    (fInteraction (fLog "Population" (fLog "AveRooms" (fLog "HouseAge" (fLog "MedInc"
      (fAgeCategory (fIncomeCategory d5))))))).rows.length = d.rows.length := by
  rw [fInteraction, fLog, fLog, fLog, fLog, fAgeCategory, fIncomeCategory,
    featStep_rows_length, featStep_rows_length, featStep_rows_length,
    featStep_rows_length, featStep_rows_length, featStep_rows_length,
    featStep_rows_length, fPriceCategory_rows_length hpc,
    fBedroomRatio, fIncomePerCapita, fPopDensity, fRooms,
    featStep_rows_length, featStep_rows_length, featStep_rows_length,
    featStep_rows_length]

set_option maxHeartbeats 1600000 in
/-- C2 as amended: every derived numeric column that is actually computed
is finite in every row, provided every source value is finite with
positive rooms and occupancy, nonzero bedrooms, nonnegative population,
income and house age, and the income column has a finite nonzero standard
deviation.  (Unconditionally the claim fails: `income_per_capita` has no
guard and a zero occupancy yields an infinity, and `income_zscore` is
undefined whenever the income standard deviation is missing — a single
row — or zero — a constant column.) -/
theorem C2_derived_columns_finite (d out : Dataset)
    (hok : crear_features d = .ok out)
    (hsrc : ∀ r ∈ d.rows, SrcOk r)
    (hStd : ∃ σ : ℚ, stdVal (colVals d "MedInc") = .fin σ ∧ σ ≠ 0) :
    (("AveRooms" ∈ d.cols ∧ "AveBedrms" ∈ d.cols) →
      ∀ v ∈ colVals out "rooms_per_household", isFin v = true) ∧
    (("Population" ∈ d.cols ∧ "AveOccup" ∈ d.cols) →
      ∀ v ∈ colVals out "population_density", isFin v = true) ∧
    (("MedInc" ∈ d.cols ∧ "AveOccup" ∈ d.cols) →
      ∀ v ∈ colVals out "income_per_capita", isFin v = true) ∧
    (("AveBedrms" ∈ d.cols ∧ "AveRooms" ∈ d.cols) →
      ∀ v ∈ colVals out "bedroom_ratio", isFin v = true) ∧
    ("MedInc" ∈ d.cols → ∀ v ∈ colVals out "MedInc_log", isFin v = true) ∧
    ("HouseAge" ∈ d.cols → ∀ v ∈ colVals out "HouseAge_log", isFin v = true) ∧
    ("AveRooms" ∈ d.cols → ∀ v ∈ colVals out "AveRooms_log", isFin v = true) ∧
    ("Population" ∈ d.cols → ∀ v ∈ colVals out "Population_log", isFin v = true) ∧
    (("MedInc" ∈ d.cols ∧ "HouseAge" ∈ d.cols) →
      ∀ v ∈ colVals out "income_age_interaction", isFin v = true) ∧
    ("MedInc" ∈ d.cols → ∀ v ∈ colVals out "income_zscore", isFin v = true) := by
  obtain ⟨d5, hpc, hout⟩ := crear_features_ok hok
  subst hout
  have hsrc1 : ∀ r ∈ (fRooms d).rows, SrcOk r := by
    rw [fRooms]
    exact featStep_srcOk _ _ (by decide) (by decide) (by decide) (by decide)
      (by decide) (by decide) hsrc
  have hsrc2 : ∀ r ∈ (fPopDensity (fRooms d)).rows, SrcOk r := by
    rw [fPopDensity]
    exact featStep_srcOk _ _ (by decide) (by decide) (by decide) (by decide)
      (by decide) (by decide) hsrc1
  have hsrc3 : ∀ r ∈ (fIncomePerCapita (fPopDensity (fRooms d))).rows, SrcOk r := by
    rw [fIncomePerCapita]
    exact featStep_srcOk _ _ (by decide) (by decide) (by decide) (by decide)
      (by decide) (by decide) hsrc2
  have hsrc4 : ∀ r ∈ (fBedroomRatio (fIncomePerCapita (fPopDensity (fRooms d)))).rows,
      SrcOk r := by
    rw [fBedroomRatio]
    exact featStep_srcOk _ _ (by decide) (by decide) (by decide) (by decide)
      (by decide) (by decide) hsrc3
  have hsrc5 : ∀ r ∈ d5.rows, SrcOk r := fPriceCategory_srcOk hpc hsrc4
  have hsrc6 : ∀ r ∈ (fIncomeCategory d5).rows, SrcOk r := by
    rw [fIncomeCategory]
    exact featStep_srcOk _ _ (by decide) (by decide) (by decide) (by decide)
      (by decide) (by decide) hsrc5
  have hsrc7 : ∀ r ∈ (fAgeCategory (fIncomeCategory d5)).rows, SrcOk r := by
    rw [fAgeCategory]
    exact featStep_srcOk _ _ (by decide) (by decide) (by decide) (by decide)
      (by decide) (by decide) hsrc6
  have hsrc8 : ∀ r ∈ (fLog "MedInc" (fAgeCategory (fIncomeCategory d5))).rows, SrcOk r := by
    rw [fLog]
    exact featStep_srcOk _ _ (by decide) (by decide) (by decide) (by decide)
      (by decide) (by decide) hsrc7
  have hsrc9 : ∀ r ∈ (fLog "HouseAge" (fLog "MedInc"
      (fAgeCategory (fIncomeCategory d5)))).rows, SrcOk r := by
    rw [fLog]
    exact featStep_srcOk _ _ (by decide) (by decide) (by decide) (by decide)
      (by decide) (by decide) hsrc8
  have hsrc10 : ∀ r ∈ (fLog "AveRooms" (fLog "HouseAge" (fLog "MedInc"
      (fAgeCategory (fIncomeCategory d5))))).rows, SrcOk r := by
    rw [fLog]
    exact featStep_srcOk _ _ (by decide) (by decide) (by decide) (by decide)
      (by decide) (by decide) hsrc9
  have hsrc11 : ∀ r ∈ (fLog "Population" (fLog "AveRooms" (fLog "HouseAge" (fLog "MedInc"
      (fAgeCategory (fIncomeCategory d5)))))).rows, SrcOk r := by
    rw [fLog]
    exact featStep_srcOk _ _ (by decide) (by decide) (by decide) (by decide)
      (by decide) (by decide) hsrc10
  have hsrc12 : ∀ r ∈ (fInteraction (fLog "Population" (fLog "AveRooms" (fLog "HouseAge"
      (fLog "MedInc" (fAgeCategory (fIncomeCategory d5))))))).rows, SrcOk r := by
    rw [fInteraction]
    exact featStep_srcOk _ _ (by decide) (by decide) (by decide) (by decide)
      (by decide) (by decide) hsrc11
  refine ⟨?_, ?_, ?_, ?_, ?_, ?_, ?_, ?_, ?_, ?_⟩
  · rintro ⟨hA, hB⟩ v hv
    rw [crear_rooms_map hA hB hpc] at hv
    obtain ⟨r, hr, rfl⟩ := List.mem_map.mp hv
    obtain ⟨⟨a, ha, _⟩, ⟨b, hb, hbne⟩, _⟩ := hsrc r hr
    rw [ha, hb, valDiv_fin_of_ne hbne]
    simp [infToNa, fillna, isFin]
  · rintro ⟨hP, hO⟩ v hv
    rw [crear_popdens_map hP hO hpc] at hv
    obtain ⟨r, hr, rfl⟩ := List.mem_map.mp hv
    obtain ⟨_, _, ⟨p, hp, _⟩, ⟨o, ho, hopos⟩, _⟩ := hsrc1 r hr
    rw [hp, ho, valAdd_fin, valDiv_fin_of_ne (by linarith : o + 1 ≠ 0)]
    simp [isFin]
  · rintro ⟨hM, hO⟩ v hv
    rw [crear_ipc_map hM hO hpc] at hv
    obtain ⟨r, hr, rfl⟩ := List.mem_map.mp hv
    obtain ⟨_, _, _, ⟨o, ho, hopos⟩, ⟨m, hm, _⟩, _⟩ := hsrc2 r hr
    rw [hm, ho, valDiv_fin_of_ne (by linarith : o ≠ 0)]
    simp [isFin]
  · rintro ⟨hB, hA⟩ v hv
    rw [crear_bedratio_map hB hA hpc] at hv
    obtain ⟨r, hr, rfl⟩ := List.mem_map.mp hv
    obtain ⟨⟨a, ha, hapos⟩, ⟨b, hb, _⟩, _⟩ := hsrc3 r hr
    rw [ha, hb, valAdd_fin, valDiv_fin_of_ne (by linarith : a + 1/100 ≠ 0)]
    simp [isFin]
  · intro hM v hv
    rw [crear_logMedInc_map hM hpc] at hv
    obtain ⟨r, hr, rfl⟩ := List.mem_map.mp hv
    obtain ⟨_, _, _, _, ⟨m, hm, hmpos⟩, _⟩ := hsrc7 r hr
    rw [hm]
    simp only [log1pVal, if_pos (by linarith : (-1 : ℚ) < m)]
    simp [isFin]
  · intro hH v hv
    rw [crear_logHouseAge_map hH hpc] at hv
    obtain ⟨r, hr, rfl⟩ := List.mem_map.mp hv
    obtain ⟨_, _, _, _, _, ⟨m, hm, hmpos⟩⟩ := hsrc8 r hr
    rw [hm]
    simp only [log1pVal, if_pos (by linarith : (-1 : ℚ) < m)]
    simp [isFin]
  · intro hA v hv
    rw [crear_logAveRooms_map hA hpc] at hv
    obtain ⟨r, hr, rfl⟩ := List.mem_map.mp hv
    obtain ⟨⟨m, hm, hmpos⟩, _⟩ := hsrc9 r hr
    rw [hm]
    simp only [log1pVal, if_pos (by linarith : (-1 : ℚ) < m)]
    simp [isFin]
  · intro hP v hv
    rw [crear_logPopulation_map hP hpc] at hv
    obtain ⟨r, hr, rfl⟩ := List.mem_map.mp hv
    obtain ⟨_, _, ⟨m, hm, hmpos⟩, _⟩ := hsrc10 r hr
    rw [hm]
    simp only [log1pVal, if_pos (by linarith : (-1 : ℚ) < m)]
    simp [isFin]
  · rintro ⟨hM, hH⟩ v hv
    rw [crear_interaction_map hM hH hpc] at hv
    obtain ⟨r, hr, rfl⟩ := List.mem_map.mp hv
    obtain ⟨_, _, _, _, ⟨m, hm, _⟩, ⟨h, hh, _⟩⟩ := hsrc11 r hr
    rw [hm, hh, valMul_fin]
    simp [isFin]
  · intro hM v hv
    rw [crear_zscore_map hM hpc] at hv
    obtain ⟨r, hr, rfl⟩ := List.mem_map.mp hv
    have hne12 := List.ne_nil_of_mem hr
    have hdne : d.rows ≠ [] := by
      intro hnil
      apply hne12
      apply List.length_eq_zero.mp
      rw [stage12_rows_length hpc, hnil]
      rfl
    have hμ : ∃ μ : ℚ, meanVal (colVals d "MedInc") = .fin μ := by
      apply meanVal_fin
      · intro hnil
        exact hdne (by simpa [colVals] using congrArg List.length hnil)
      · intro v hv'
        obtain ⟨r', hr', rfl⟩ := List.mem_map.mp hv'
        obtain ⟨_, _, _, _, ⟨m, hm, _⟩, _⟩ := hsrc r' hr'
        rw [hm]; rfl
    obtain ⟨μ, hμ⟩ := hμ
    obtain ⟨σ, hσ, hσne⟩ := hStd
    obtain ⟨_, _, _, _, ⟨m, hm, _⟩, _⟩ := hsrc12 r hr
    rw [hm, hμ, hσ, valSub_fin, valDiv_fin_of_ne hσne]
    simp [isFin]

/-- A concrete row with all six source columns populated. -/
def allRow (rooms bed pop occ inc age : ℚ) : Row := fun c =>
  if c = "AveRooms" then .fin rooms else if c = "AveBedrms" then .fin bed
  else if c = "Population" then .fin pop else if c = "AveOccup" then .fin occ
  else if c = "MedInc" then .fin inc else if c = "HouseAge" then .fin age else .na

/-- A concrete two-row dataset with valid source values and two distinct
incomes. -/
def dAllSrc : Dataset :=
  { cols := ["AveRooms", "AveBedrms", "Population", "AveOccup", "MedInc", "HouseAge"],
    rows := [allRow 5 1 100 2 2 10, allRow 6 2 200 3 4 20] }

/-- Witness for C2: on `dAllSrc` the side conditions hold (incomes `2` and
`4` give sample variance `2`) and the unguarded derived columns are
finite. -/
theorem C2_derived_columns_finite_witness :
    (∀ r ∈ dAllSrc.rows, SrcOk r) ∧
    (∃ σ : ℚ, stdVal (colVals dAllSrc "MedInc") = .fin σ ∧ σ ≠ 0) ∧
    ∃ out, crear_features dAllSrc = .ok out ∧
      (∀ v ∈ colVals out "income_per_capita", isFin v = true) ∧
      (∀ v ∈ colVals out "income_zscore", isFin v = true) := by
  have hsrcW : ∀ r ∈ dAllSrc.rows, SrcOk r := by
    intro r hr
    simp only [dAllSrc, List.mem_cons, List.not_mem_nil, or_false] at hr
    rcases hr with rfl | rfl
    · exact ⟨⟨5, by simp +decide [allRow], by norm_num⟩,
        ⟨1, by simp +decide [allRow], by norm_num⟩,
        ⟨100, by simp +decide [allRow], by norm_num⟩,
        ⟨2, by simp +decide [allRow], by norm_num⟩,
        ⟨2, by simp +decide [allRow], by norm_num⟩,
        ⟨10, by simp +decide [allRow], by norm_num⟩⟩
    · exact ⟨⟨6, by simp +decide [allRow], by norm_num⟩,
        ⟨2, by simp +decide [allRow], by norm_num⟩,
        ⟨200, by simp +decide [allRow], by norm_num⟩,
        ⟨3, by simp +decide [allRow], by norm_num⟩,
        ⟨4, by simp +decide [allRow], by norm_num⟩,
        ⟨20, by simp +decide [allRow], by norm_num⟩⟩
  have hcv : colVals dAllSrc "MedInc" = [.fin 2, .fin 4] := by
    simp +decide [colVals, dAllSrc, allRow]
  have hstdW : stdVal (colVals dAllSrc "MedInc") = .fin 2 := by
    rw [hcv]
    norm_num [stdVal, varVal, meanVal, isNum, List.filter, valAdd, valSub, valMul,
      valNeg, valDiv]
  have hnop : "MedHouseVal"
      ∉ (fBedroomRatio (fIncomePerCapita (fPopDensity (fRooms dAllSrc)))).cols := by
    simp +decide [fRooms, fPopDensity, fIncomePerCapita, fBedroomRatio, featStep,
      setCol, dAllSrc]
  obtain ⟨out, hok⟩ := crear_features_ok_of_no_price hnop
  have hC := C2_derived_columns_finite dAllSrc out hok hsrcW ⟨2, hstdW, by norm_num⟩
  exact ⟨hsrcW, ⟨2, hstdW, by norm_num⟩, out, hok,
    hC.2.2.1 ⟨by decide, by decide⟩,
    hC.2.2.2.2.2.2.2.2.2 (by decide)⟩

/-- Counterexample to C2 as stated: on the one-row dataset `dInc3` the
feature deriver succeeds but `income_zscore` is undefined in the only row,
because the sample standard deviation of a single income (`ddof = 1`) is
missing. -/
theorem C2_counterexample :
    ¬ (∀ out, crear_features dInc3 = .ok out →
        ∀ v ∈ colVals out "income_zscore", isFin v = true) := by
  intro hclaim
  have heval : crearColVals dInc3 "income_zscore" = [.na] := by
    simp +decide [crearColVals, crear_features, fRooms, fPopDensity, fIncomePerCapita,
      fBedroomRatio, fPriceCategory, fIncomeCategory, fAgeCategory, fLog, fInteraction,
      fZscore, featStep, setCol, colVals, dInc3, incRow, meanVal, varVal, stdVal,
      valAdd, valSub, valMul, valNeg, valDiv, isNum, List.filter, Function.update,
      log1pVal, pdCut, binLabel, valLt, valLe]
  rw [crearColVals] at heval
  split at heval
  · rename_i out heq
    have hfin := hclaim out heq Val.na (by rw [heval]; exact List.mem_singleton.mpr rfl)
    exact absurd hfin (by decide)
  · exact absurd heval (by decide)

/-- The names of the thirteen derivable columns, in program order. -/
def derivedNames : List String :=
  ["rooms_per_household", "population_density", "income_per_capita", "bedroom_ratio",
   "price_category", "income_category", "house_age_category", "MedInc_log",
   "HouseAge_log", "AveRooms_log", "Population_log", "income_age_interaction",
   "income_zscore"]

/-- The derived columns the feature deriver appends, as a function of the
input schema: each name appears exactly when its source columns are
present, in the fixed program order. -/
def expectedNewCols (cs : List String) : List String :=
  (if "AveRooms" ∈ cs ∧ "AveBedrms" ∈ cs then ["rooms_per_household"] else []) ++
  ((if "Population" ∈ cs ∧ "AveOccup" ∈ cs then ["population_density"] else []) ++
  ((if "MedInc" ∈ cs ∧ "AveOccup" ∈ cs then ["income_per_capita"] else []) ++
  ((if "AveBedrms" ∈ cs ∧ "AveRooms" ∈ cs then ["bedroom_ratio"] else []) ++
  ((if "MedHouseVal" ∈ cs then ["price_category"] else []) ++
  ((if "MedInc" ∈ cs then ["income_category"] else []) ++
  ((if "HouseAge" ∈ cs then ["house_age_category"] else []) ++
  ((if "MedInc" ∈ cs then ["MedInc_log"] else []) ++
  ((if "HouseAge" ∈ cs then ["HouseAge_log"] else []) ++
  ((if "AveRooms" ∈ cs then ["AveRooms_log"] else []) ++
  ((if "Population" ∈ cs then ["Population_log"] else []) ++
  ((if "MedInc" ∈ cs ∧ "HouseAge" ∈ cs then ["income_age_interaction"] else []) ++
  (if "MedInc" ∈ cs then ["income_zscore"] else []))))))))))))

@[simp] theorem mem_ite_nil {α : Type} {c : Prop} [Decidable c] {a : α} {l : List α} :
    (a ∈ if c then l else []) ↔ c ∧ a ∈ l := by
  split <;> simp_all

theorem featStep_cols_congr (P : Dataset → Prop) [DecidablePred P] {n : String}
    (g : Dataset → Row → Val) {dk : Dataset} {Q : Prop} [Decidable Q]
    (hn : n ∉ dk.cols) (hiff : P dk ↔ Q) :
    (featStep P n g dk).cols = dk.cols ++ (if Q then [n] else []) := by
  rw [featStep_cols _ _ hn]
  by_cases hq : Q
  · rw [if_pos (hiff.mpr hq), if_pos hq]
  · rw [if_neg (fun hp => hq (hiff.mp hp)), if_neg hq]

theorem cols_iff_T1 {d : Dataset} {s : String} (h1 : s ≠ "rooms_per_household") :
    s ∈ (fRooms d).cols ↔ s ∈ d.cols := by
  rw [fRooms]
  exact featStep_cols_mem_iff _ _ _ h1

theorem cols_iff_T2 {d : Dataset} {s : String} (h1 : s ≠ "rooms_per_household") (h2 : s ≠ "population_density") :
    s ∈ (fPopDensity (fRooms d)).cols ↔ s ∈ d.cols := by
  rw [fPopDensity]
  exact (featStep_cols_mem_iff _ _ _ h2).trans (cols_iff_T1 h1)

theorem cols_iff_T3 {d : Dataset} {s : String} (h1 : s ≠ "rooms_per_household") (h2 : s ≠ "population_density") (h3 : s ≠ "income_per_capita") :
    s ∈ (fIncomePerCapita (fPopDensity (fRooms d))).cols ↔ s ∈ d.cols := by
  rw [fIncomePerCapita]
  exact (featStep_cols_mem_iff _ _ _ h3).trans (cols_iff_T2 h1 h2)

theorem cols_iff_T4 {d : Dataset} {s : String} (h1 : s ≠ "rooms_per_household") (h2 : s ≠ "population_density") (h3 : s ≠ "income_per_capita") (h4 : s ≠ "bedroom_ratio") :
    s ∈ (fBedroomRatio (fIncomePerCapita (fPopDensity (fRooms d)))).cols ↔ s ∈ d.cols := by
  rw [fBedroomRatio]
  exact (featStep_cols_mem_iff _ _ _ h4).trans (cols_iff_T3 h1 h2 h3)

theorem fPriceCategory_cols_mem_iff {d d5 : Dataset} {c : String}
    (hc : c ≠ "price_category") (hpc : fPriceCategory d = .ok d5) :
    c ∈ d5.cols ↔ c ∈ d.cols := by
  rcases fPriceCategory_ok hpc with ⟨_, rfl⟩ | ⟨_, rfl⟩
  · exact setCol_cols_mem_iff _ hc
  · exact Iff.rfl

theorem cols_iff_d5 {d d5 : Dataset} {s : String}
    (hpc : fPriceCategory (fBedroomRatio (fIncomePerCapita (fPopDensity (fRooms d))))
      = .ok d5)
    (h1 : s ≠ "rooms_per_household") (h2 : s ≠ "population_density")
    (h3 : s ≠ "income_per_capita") (h4 : s ≠ "bedroom_ratio")
    (h5 : s ≠ "price_category") :
    s ∈ d5.cols ↔ s ∈ d.cols :=
  (fPriceCategory_cols_mem_iff h5 hpc).trans (cols_iff_T4 h1 h2 h3 h4)

theorem cols_iff_T6 {d d5 : Dataset} {s : String}
    (hpc : fPriceCategory (fBedroomRatio (fIncomePerCapita (fPopDensity (fRooms d))))
      = .ok d5)
    (h1 : s ≠ "rooms_per_household") (h2 : s ≠ "population_density") (h3 : s ≠ "income_per_capita") (h4 : s ≠ "bedroom_ratio") (h5 : s ≠ "price_category") (h6 : s ≠ "income_category") :
    s ∈ (fIncomeCategory d5).cols ↔ s ∈ d.cols := by
  rw [fIncomeCategory]
  exact (featStep_cols_mem_iff _ _ _ h6).trans (cols_iff_d5 hpc h1 h2 h3 h4 h5)

theorem cols_iff_T7 {d d5 : Dataset} {s : String}
    (hpc : fPriceCategory (fBedroomRatio (fIncomePerCapita (fPopDensity (fRooms d))))
      = .ok d5)
    (h1 : s ≠ "rooms_per_household") (h2 : s ≠ "population_density") (h3 : s ≠ "income_per_capita") (h4 : s ≠ "bedroom_ratio") (h5 : s ≠ "price_category") (h6 : s ≠ "income_category") (h7 : s ≠ "house_age_category") :
    s ∈ (fAgeCategory (fIncomeCategory d5)).cols ↔ s ∈ d.cols := by
  rw [fAgeCategory]
  exact (featStep_cols_mem_iff _ _ _ h7).trans (cols_iff_T6 hpc h1 h2 h3 h4 h5 h6)

theorem cols_iff_T8 {d d5 : Dataset} {s : String}
    (hpc : fPriceCategory (fBedroomRatio (fIncomePerCapita (fPopDensity (fRooms d))))
      = .ok d5)
    (h1 : s ≠ "rooms_per_household") (h2 : s ≠ "population_density") (h3 : s ≠ "income_per_capita") (h4 : s ≠ "bedroom_ratio") (h5 : s ≠ "price_category") (h6 : s ≠ "income_category") (h7 : s ≠ "house_age_category") (h8 : s ≠ "MedInc_log") :
    s ∈ (fLog "MedInc" (fAgeCategory (fIncomeCategory d5))).cols ↔ s ∈ d.cols := by
  rw [fLog, logName_MedInc]
  exact (featStep_cols_mem_iff _ _ _ h8).trans (cols_iff_T7 hpc h1 h2 h3 h4 h5 h6 h7)

theorem cols_iff_T9 {d d5 : Dataset} {s : String}
    (hpc : fPriceCategory (fBedroomRatio (fIncomePerCapita (fPopDensity (fRooms d))))
      = .ok d5)
    (h1 : s ≠ "rooms_per_household") (h2 : s ≠ "population_density") (h3 : s ≠ "income_per_capita") (h4 : s ≠ "bedroom_ratio") (h5 : s ≠ "price_category") (h6 : s ≠ "income_category") (h7 : s ≠ "house_age_category") (h8 : s ≠ "MedInc_log") (h9 : s ≠ "HouseAge_log") :
    s ∈ (fLog "HouseAge" (fLog "MedInc" (fAgeCategory (fIncomeCategory d5)))).cols ↔ s ∈ d.cols := by
  rw [fLog, logName_HouseAge]
  exact (featStep_cols_mem_iff _ _ _ h9).trans (cols_iff_T8 hpc h1 h2 h3 h4 h5 h6 h7 h8)

theorem cols_iff_T10 {d d5 : Dataset} {s : String}
    (hpc : fPriceCategory (fBedroomRatio (fIncomePerCapita (fPopDensity (fRooms d))))
      = .ok d5)
    (h1 : s ≠ "rooms_per_household") (h2 : s ≠ "population_density") (h3 : s ≠ "income_per_capita") (h4 : s ≠ "bedroom_ratio") (h5 : s ≠ "price_category") (h6 : s ≠ "income_category") (h7 : s ≠ "house_age_category") (h8 : s ≠ "MedInc_log") (h9 : s ≠ "HouseAge_log") (h10 : s ≠ "AveRooms_log") :
    s ∈ (fLog "AveRooms" (fLog "HouseAge" (fLog "MedInc" (fAgeCategory (fIncomeCategory d5))))).cols ↔ s ∈ d.cols := by
  rw [fLog, logName_AveRooms]
  exact (featStep_cols_mem_iff _ _ _ h10).trans (cols_iff_T9 hpc h1 h2 h3 h4 h5 h6 h7 h8 h9)

theorem cols_iff_T11 {d d5 : Dataset} {s : String}
    (hpc : fPriceCategory (fBedroomRatio (fIncomePerCapita (fPopDensity (fRooms d))))
      = .ok d5)
    (h1 : s ≠ "rooms_per_household") (h2 : s ≠ "population_density") (h3 : s ≠ "income_per_capita") (h4 : s ≠ "bedroom_ratio") (h5 : s ≠ "price_category") (h6 : s ≠ "income_category") (h7 : s ≠ "house_age_category") (h8 : s ≠ "MedInc_log") (h9 : s ≠ "HouseAge_log") (h10 : s ≠ "AveRooms_log") (h11 : s ≠ "Population_log") :
    s ∈ (fLog "Population" (fLog "AveRooms" (fLog "HouseAge" (fLog "MedInc" (fAgeCategory (fIncomeCategory d5)))))).cols ↔ s ∈ d.cols := by
  rw [fLog, logName_Population]
  exact (featStep_cols_mem_iff _ _ _ h11).trans (cols_iff_T10 hpc h1 h2 h3 h4 h5 h6 h7 h8 h9 h10)

theorem cols_iff_T12 {d d5 : Dataset} {s : String}
    (hpc : fPriceCategory (fBedroomRatio (fIncomePerCapita (fPopDensity (fRooms d))))
      = .ok d5)
    (h1 : s ≠ "rooms_per_household") (h2 : s ≠ "population_density") (h3 : s ≠ "income_per_capita") (h4 : s ≠ "bedroom_ratio") (h5 : s ≠ "price_category") (h6 : s ≠ "income_category") (h7 : s ≠ "house_age_category") (h8 : s ≠ "MedInc_log") (h9 : s ≠ "HouseAge_log") (h10 : s ≠ "AveRooms_log") (h11 : s ≠ "Population_log") (h12 : s ≠ "income_age_interaction") :
    s ∈ (fInteraction (fLog "Population" (fLog "AveRooms" (fLog "HouseAge" (fLog "MedInc" (fAgeCategory (fIncomeCategory d5))))))).cols ↔ s ∈ d.cols := by
  rw [fInteraction]
  exact (featStep_cols_mem_iff _ _ _ h12).trans (cols_iff_T11 hpc h1 h2 h3 h4 h5 h6 h7 h8 h9 h10 h11)

set_option maxHeartbeats 12800000 in
/-- C6 as amended: when none of the thirteen derivable column names
already occurs in the input schema, a successful feature-derivation run
preserves the row count, leaves every original column's values unchanged,
and appends the applicable derived columns after the originals in the
fixed program order.  (The original claim, over every cleaned dataset,
fails when the input already contains a column named like a derived one:
pandas assignment then overwrites the existing column in place.) -/
theorem C6_frame (d out : Dataset)
    (hfresh : ∀ n ∈ derivedNames, n ∉ d.cols)
    (hok : crear_features d = .ok out) :
    out.rows.length = d.rows.length ∧
    (∀ c ∈ d.cols, colVals out c = colVals d c) ∧
    out.cols = d.cols ++ expectedNewCols d.cols := by
  obtain ⟨d5, hpc, hout⟩ := crear_features_ok hok
  subst hout
  refine ⟨?_, ?_, ?_⟩
  · simp only [fZscore, fInteraction, fLog, fAgeCategory, fIncomeCategory,
      featStep_rows_length, fPriceCategory_rows_length hpc,
      fBedroomRatio, fIncomePerCapita, fPopDensity, fRooms]
  · intro c hc
    have hcne : ∀ n ∈ derivedNames, c ≠ n := fun n hn heq => hfresh n hn (heq ▸ hc)
    rw [post_price_colVals d5 (hcne _ (by decide)) (hcne _ (by decide))
        (hcne _ (by decide)) (hcne _ (by decide)) (hcne _ (by decide))
        (hcne _ (by decide)) (hcne _ (by decide)) (hcne _ (by decide)),
      fPriceCategory_colVals_ne (hcne _ (by decide)) hpc]
    exact pre_price_colVals d (hcne _ (by decide)) (hcne _ (by decide))
      (hcne _ (by decide)) (hcne _ (by decide))
  · have hc1 : (fRooms d).cols = d.cols ++
        (if "AveRooms" ∈ d.cols ∧ "AveBedrms" ∈ d.cols then ["rooms_per_household"] else []) := by
      rw [fRooms, featStep_cols _ _ (hfresh _ (by decide))]
    have hiff2 : ("Population" ∈ (fRooms d).cols ∧ "AveOccup" ∈ (fRooms d).cols) ↔ ("Population" ∈ d.cols ∧ "AveOccup" ∈ d.cols) :=
      and_congr (cols_iff_T1 (by decide)) (cols_iff_T1 (by decide))
    have hnot2 : "population_density" ∉ (fRooms d).cols :=
      fun hmem => hfresh "population_density" (by decide) ((cols_iff_T1 (by decide)).mp hmem)
    have hc2 : (fPopDensity (fRooms d)).cols = (fRooms d).cols ++
        (if "Population" ∈ d.cols ∧ "AveOccup" ∈ d.cols then ["population_density"] else []) := by
      rw [fPopDensity, featStep_cols_congr _ _ hnot2 hiff2]
    have hiff3 : ("MedInc" ∈ (fPopDensity (fRooms d)).cols ∧ "AveOccup" ∈ (fPopDensity (fRooms d)).cols) ↔ ("MedInc" ∈ d.cols ∧ "AveOccup" ∈ d.cols) :=
      and_congr (cols_iff_T2 (by decide) (by decide)) (cols_iff_T2 (by decide) (by decide))
    have hnot3 : "income_per_capita" ∉ (fPopDensity (fRooms d)).cols :=
      fun hmem => hfresh "income_per_capita" (by decide) ((cols_iff_T2 (by decide) (by decide)).mp hmem)
    have hc3 : (fIncomePerCapita (fPopDensity (fRooms d))).cols = (fPopDensity (fRooms d)).cols ++
        (if "MedInc" ∈ d.cols ∧ "AveOccup" ∈ d.cols then ["income_per_capita"] else []) := by
      rw [fIncomePerCapita, featStep_cols_congr _ _ hnot3 hiff3]
    have hiff4 : ("AveBedrms" ∈ (fIncomePerCapita (fPopDensity (fRooms d))).cols ∧ "AveRooms" ∈ (fIncomePerCapita (fPopDensity (fRooms d))).cols) ↔ ("AveBedrms" ∈ d.cols ∧ "AveRooms" ∈ d.cols) :=
      and_congr (cols_iff_T3 (by decide) (by decide) (by decide)) (cols_iff_T3 (by decide) (by decide) (by decide))
    have hnot4 : "bedroom_ratio" ∉ (fIncomePerCapita (fPopDensity (fRooms d))).cols :=
      fun hmem => hfresh "bedroom_ratio" (by decide) ((cols_iff_T3 (by decide) (by decide) (by decide)).mp hmem)
    have hc4 : (fBedroomRatio (fIncomePerCapita (fPopDensity (fRooms d)))).cols = (fIncomePerCapita (fPopDensity (fRooms d))).cols ++
        (if "AveBedrms" ∈ d.cols ∧ "AveRooms" ∈ d.cols then ["bedroom_ratio"] else []) := by
      rw [fBedroomRatio, featStep_cols_congr _ _ hnot4 hiff4]
    have hiff5 : ("MedHouseVal" ∈ (fBedroomRatio (fIncomePerCapita (fPopDensity (fRooms d)))).cols) ↔ ("MedHouseVal" ∈ d.cols) :=
      cols_iff_T4 (by decide) (by decide) (by decide) (by decide)
    have hnot5 : "price_category" ∉ (fBedroomRatio (fIncomePerCapita (fPopDensity (fRooms d)))).cols :=
      fun hmem => hfresh "price_category" (by decide) ((cols_iff_T4 (by decide) (by decide) (by decide) (by decide)).mp hmem)
    have hc5 : d5.cols = (fBedroomRatio (fIncomePerCapita (fPopDensity (fRooms d)))).cols ++
        (if "MedHouseVal" ∈ d.cols then ["price_category"] else []) := by
      rcases fPriceCategory_ok hpc with ⟨hm, rfl⟩ | ⟨hm, rfl⟩
      · rw [setCol_cols_of_not_mem _ hnot5, if_pos (hiff5.mp hm)]
      · rw [if_neg (fun hmm => hm (hiff5.mpr hmm)), List.append_nil]
    have hiff6 : ("MedInc" ∈ (d5).cols) ↔ ("MedInc" ∈ d.cols) :=
      cols_iff_d5 hpc (by decide) (by decide) (by decide) (by decide) (by decide)
    have hnot6 : "income_category" ∉ (d5).cols :=
      fun hmem => hfresh "income_category" (by decide) ((cols_iff_d5 hpc (by decide) (by decide) (by decide) (by decide) (by decide)).mp hmem)
    have hc6 : (fIncomeCategory d5).cols = (d5).cols ++
        (if "MedInc" ∈ d.cols then ["income_category"] else []) := by
      rw [fIncomeCategory, featStep_cols_congr _ _ hnot6 hiff6]
    have hiff7 : ("HouseAge" ∈ (fIncomeCategory d5).cols) ↔ ("HouseAge" ∈ d.cols) :=
      cols_iff_T6 hpc (by decide) (by decide) (by decide) (by decide) (by decide) (by decide)
    have hnot7 : "house_age_category" ∉ (fIncomeCategory d5).cols :=
      fun hmem => hfresh "house_age_category" (by decide) ((cols_iff_T6 hpc (by decide) (by decide) (by decide) (by decide) (by decide) (by decide)).mp hmem)
    have hc7 : (fAgeCategory (fIncomeCategory d5)).cols = (fIncomeCategory d5).cols ++
        (if "HouseAge" ∈ d.cols then ["house_age_category"] else []) := by
      rw [fAgeCategory, featStep_cols_congr _ _ hnot7 hiff7]
    have hiff8 : ("MedInc" ∈ (fAgeCategory (fIncomeCategory d5)).cols) ↔ ("MedInc" ∈ d.cols) :=
      cols_iff_T7 hpc (by decide) (by decide) (by decide) (by decide) (by decide) (by decide) (by decide)
    have hnot8 : "MedInc_log" ∉ (fAgeCategory (fIncomeCategory d5)).cols :=
      fun hmem => hfresh "MedInc_log" (by decide) ((cols_iff_T7 hpc (by decide) (by decide) (by decide) (by decide) (by decide) (by decide) (by decide)).mp hmem)
    have hc8 : (fLog "MedInc" (fAgeCategory (fIncomeCategory d5))).cols = (fAgeCategory (fIncomeCategory d5)).cols ++
        (if "MedInc" ∈ d.cols then ["MedInc_log"] else []) := by
      rw [fLog, logName_MedInc, featStep_cols_congr _ _ hnot8 hiff8]
    have hiff9 : ("HouseAge" ∈ (fLog "MedInc" (fAgeCategory (fIncomeCategory d5))).cols) ↔ ("HouseAge" ∈ d.cols) :=
      cols_iff_T8 hpc (by decide) (by decide) (by decide) (by decide) (by decide) (by decide) (by decide) (by decide)
    have hnot9 : "HouseAge_log" ∉ (fLog "MedInc" (fAgeCategory (fIncomeCategory d5))).cols :=
      fun hmem => hfresh "HouseAge_log" (by decide) ((cols_iff_T8 hpc (by decide) (by decide) (by decide) (by decide) (by decide) (by decide) (by decide) (by decide)).mp hmem)
    have hc9 : (fLog "HouseAge" (fLog "MedInc" (fAgeCategory (fIncomeCategory d5)))).cols = (fLog "MedInc" (fAgeCategory (fIncomeCategory d5))).cols ++
        (if "HouseAge" ∈ d.cols then ["HouseAge_log"] else []) := by
      rw [fLog, logName_HouseAge, featStep_cols_congr _ _ hnot9 hiff9]
    have hiff10 : ("AveRooms" ∈ (fLog "HouseAge" (fLog "MedInc" (fAgeCategory (fIncomeCategory d5)))).cols) ↔ ("AveRooms" ∈ d.cols) :=
      cols_iff_T9 hpc (by decide) (by decide) (by decide) (by decide) (by decide) (by decide) (by decide) (by decide) (by decide)
    have hnot10 : "AveRooms_log" ∉ (fLog "HouseAge" (fLog "MedInc" (fAgeCategory (fIncomeCategory d5)))).cols :=
      fun hmem => hfresh "AveRooms_log" (by decide) ((cols_iff_T9 hpc (by decide) (by decide) (by decide) (by decide) (by decide) (by decide) (by decide) (by decide) (by decide)).mp hmem)
    have hc10 : (fLog "AveRooms" (fLog "HouseAge" (fLog "MedInc" (fAgeCategory (fIncomeCategory d5))))).cols = (fLog "HouseAge" (fLog "MedInc" (fAgeCategory (fIncomeCategory d5)))).cols ++
        (if "AveRooms" ∈ d.cols then ["AveRooms_log"] else []) := by
      rw [fLog, logName_AveRooms, featStep_cols_congr _ _ hnot10 hiff10]
    have hiff11 : ("Population" ∈ (fLog "AveRooms" (fLog "HouseAge" (fLog "MedInc" (fAgeCategory (fIncomeCategory d5))))).cols) ↔ ("Population" ∈ d.cols) :=
      cols_iff_T10 hpc (by decide) (by decide) (by decide) (by decide) (by decide) (by decide) (by decide) (by decide) (by decide) (by decide)
    have hnot11 : "Population_log" ∉ (fLog "AveRooms" (fLog "HouseAge" (fLog "MedInc" (fAgeCategory (fIncomeCategory d5))))).cols :=
      fun hmem => hfresh "Population_log" (by decide) ((cols_iff_T10 hpc (by decide) (by decide) (by decide) (by decide) (by decide) (by decide) (by decide) (by decide) (by decide) (by decide)).mp hmem)
    have hc11 : (fLog "Population" (fLog "AveRooms" (fLog "HouseAge" (fLog "MedInc" (fAgeCategory (fIncomeCategory d5)))))).cols = (fLog "AveRooms" (fLog "HouseAge" (fLog "MedInc" (fAgeCategory (fIncomeCategory d5))))).cols ++
        (if "Population" ∈ d.cols then ["Population_log"] else []) := by
      rw [fLog, logName_Population, featStep_cols_congr _ _ hnot11 hiff11]
    have hiff12 : ("MedInc" ∈ (fLog "Population" (fLog "AveRooms" (fLog "HouseAge" (fLog "MedInc" (fAgeCategory (fIncomeCategory d5)))))).cols ∧ "HouseAge" ∈ (fLog "Population" (fLog "AveRooms" (fLog "HouseAge" (fLog "MedInc" (fAgeCategory (fIncomeCategory d5)))))).cols) ↔ ("MedInc" ∈ d.cols ∧ "HouseAge" ∈ d.cols) :=
      and_congr (cols_iff_T11 hpc (by decide) (by decide) (by decide) (by decide) (by decide) (by decide) (by decide) (by decide) (by decide) (by decide) (by decide)) (cols_iff_T11 hpc (by decide) (by decide) (by decide) (by decide) (by decide) (by decide) (by decide) (by decide) (by decide) (by decide) (by decide))
    have hnot12 : "income_age_interaction" ∉ (fLog "Population" (fLog "AveRooms" (fLog "HouseAge" (fLog "MedInc" (fAgeCategory (fIncomeCategory d5)))))).cols :=
      fun hmem => hfresh "income_age_interaction" (by decide) ((cols_iff_T11 hpc (by decide) (by decide) (by decide) (by decide) (by decide) (by decide) (by decide) (by decide) (by decide) (by decide) (by decide)).mp hmem)
    have hc12 : (fInteraction (fLog "Population" (fLog "AveRooms" (fLog "HouseAge" (fLog "MedInc" (fAgeCategory (fIncomeCategory d5))))))).cols = (fLog "Population" (fLog "AveRooms" (fLog "HouseAge" (fLog "MedInc" (fAgeCategory (fIncomeCategory d5)))))).cols ++
        (if "MedInc" ∈ d.cols ∧ "HouseAge" ∈ d.cols then ["income_age_interaction"] else []) := by
      rw [fInteraction, featStep_cols_congr _ _ hnot12 hiff12]
    have hiff13 : ("MedInc" ∈ (fInteraction (fLog "Population" (fLog "AveRooms" (fLog "HouseAge" (fLog "MedInc" (fAgeCategory (fIncomeCategory d5))))))).cols) ↔ ("MedInc" ∈ d.cols) :=
      cols_iff_T12 hpc (by decide) (by decide) (by decide) (by decide) (by decide) (by decide) (by decide) (by decide) (by decide) (by decide) (by decide) (by decide)
    have hnot13 : "income_zscore" ∉ (fInteraction (fLog "Population" (fLog "AveRooms" (fLog "HouseAge" (fLog "MedInc" (fAgeCategory (fIncomeCategory d5))))))).cols :=
      fun hmem => hfresh "income_zscore" (by decide) ((cols_iff_T12 hpc (by decide) (by decide) (by decide) (by decide) (by decide) (by decide) (by decide) (by decide) (by decide) (by decide) (by decide) (by decide)).mp hmem)
    have hc13 : (fZscore (fInteraction (fLog "Population" (fLog "AveRooms" (fLog "HouseAge" (fLog "MedInc" (fAgeCategory (fIncomeCategory d5)))))))).cols = (fInteraction (fLog "Population" (fLog "AveRooms" (fLog "HouseAge" (fLog "MedInc" (fAgeCategory (fIncomeCategory d5))))))).cols ++
        (if "MedInc" ∈ d.cols then ["income_zscore"] else []) := by
      rw [fZscore, featStep_cols_congr _ _ hnot13 hiff13]
    simp only [hc13, hc12, hc11, hc10, hc9, hc8, hc7, hc6, hc5, hc4, hc3, hc2, hc1,
      expectedNewCols, List.append_assoc]

/-- Witness for C6: the schema of `dAllSrc` contains no derivable column
name, the derivation succeeds on it, keeps both rows, preserves every
original column and appends the expected derived columns. -/
theorem C6_frame_witness :
    (∀ n ∈ derivedNames, n ∉ dAllSrc.cols) ∧
    ∃ out, crear_features dAllSrc = .ok out ∧
      out.rows.length = dAllSrc.rows.length ∧
      (∀ c ∈ dAllSrc.cols, colVals out c = colVals dAllSrc c) ∧
      out.cols = dAllSrc.cols ++ expectedNewCols dAllSrc.cols := by
  have hfresh : ∀ n ∈ derivedNames, n ∉ dAllSrc.cols := by decide
  have hnop : "MedHouseVal"
      ∉ (fBedroomRatio (fIncomePerCapita (fPopDensity (fRooms dAllSrc)))).cols := by
    simp +decide [fRooms, fPopDensity, fIncomePerCapita, fBedroomRatio, featStep,
      setCol, dAllSrc]
  obtain ⟨out, hok⟩ := crear_features_ok_of_no_price hnop
  exact ⟨hfresh, out, hok, C6_frame dAllSrc out hfresh hok⟩

/-- A concrete row whose schema already holds a `rooms_per_household`
column with value `99`, next to rooms `4` and bedrooms `2`. -/
def clashRow : Row := fun c =>
  if c = "AveRooms" then .fin 4 else if c = "AveBedrms" then .fin 2
  else if c = "rooms_per_household" then .fin 99 else .na

/-- A concrete one-row dataset whose input schema already contains the
derived name `rooms_per_household`. -/
def dRphClash : Dataset :=
  { cols := ["AveRooms", "AveBedrms", "rooms_per_household"],
    rows := [clashRow] }

/-- Counterexample to C6 as stated: on an input that already has a column
named `rooms_per_household`, the feature deriver overwrites it in place
(`99` becomes `4 / 2 = 2`), so an original column's values do change. -/
theorem C6_counterexample :
    ¬ (∀ out, crear_features dRphClash = .ok out →
        ∀ c ∈ dRphClash.cols, colVals out c = colVals dRphClash c) := by
  intro hclaim
  have heval : crearColVals dRphClash "rooms_per_household" = [.fin 2] := by
    simp +decide [crearColVals, crear_features, fRooms, fPopDensity, fIncomePerCapita,
      fBedroomRatio, fPriceCategory, fIncomeCategory, fAgeCategory, fLog, fInteraction,
      fZscore, featStep, setCol, colVals, dRphClash, clashRow, Function.update,
      valDiv, valAdd, infToNa, fillna]
    norm_num
  rw [crearColVals] at heval
  split at heval
  · rename_i out heq
    rw [hclaim out heq "rooms_per_household" (by decide)] at heval
    have horig : colVals dRphClash "rooms_per_household" = [.fin 99] := by
      simp +decide [colVals, dRphClash, clashRow]
    rw [horig] at heval
    exact absurd heval (by decide)
  · exact absurd heval (by decide)

end Pipeline
